import Mathlib

/-!
# SkillBridge — verification of the application/review lifecycle core

Shallow embedding of the SkillBridge service-marketplace backend
(Next.js route handlers + Mongoose models).  Document ids (Mongo
ObjectIds) are modelled as `Nat`; id generation by the persistence
layer is modelled with a fresh-id counter `nextId` on the database
state.  The JS `number` values feeding the rating aggregate are small
integers and exact decimals, modelled as `ℚ` (all arithmetic performed
by the source on them is exact in double precision at the modelled
scale).  Each route handler becomes a pure function from the database
state (plus the authenticated session and parsed request data) to an
`Except` result; Mongo unique-index violations (error code 11000)
become an explicit `DbError.duplicateKey` raised by the modelled
`create` operations.
-/

namespace SkillBridge

/-- User roles, from the `role` enum of the User model. -/
inductive Role
  | SEEKER
  | PROVIDER
deriving DecidableEq, Repr

/-- The authenticated session: `getSession` returns `{userId, role}` from the JWT. -/
structure Session where
  userId : Nat
  role : Role
deriving DecidableEq, Repr

/-- `ServicePost.status` enum. -/
inductive PostStatus
  | OPEN
  | CLOSED
deriving DecidableEq, Repr

/-- `Application.status` enum. -/
inductive AppStatus
  | PENDING
  | ACCEPTED
  | REJECTED
deriving DecidableEq, Repr

/-- A ServicePost document (fields relevant to the lifecycle core:
`_id`, `userId` (owner seeker), `title`, `status`; the remaining body
fields — description, category, budget, requiredSkills, location,
milestones — are carried by no verified operation's logic). -/
structure Post where
  id : Nat
  userId : Nat
  title : String
  status : PostStatus
deriving DecidableEq, Repr

/-- An Application document: `_id`, `postId`, `providerId`, cover
`message`, `status` (default `PENDING` in the schema). -/
structure Application where
  id : Nat
  postId : Nat
  providerId : Nat
  message : String
  status : AppStatus
deriving DecidableEq, Repr

/-- A Review document: `_id`, `seekerId`, `providerId`,
`applicationId` (unique index: one review per application),
`rating` (integer 1–5), optional `comment`. -/
structure Review where
  id : Nat
  seekerId : Nat
  providerId : Nat
  applicationId : Nat
  rating : Nat
  comment : Option String
deriving DecidableEq, Repr

/-- A User document (rating-projection fields: `averageRating`
defaults to 0, `reviewCount` defaults to 0). -/
structure User where
  id : Nat
  name : String
  role : Role
  averageRating : ℚ
  reviewCount : Nat
deriving DecidableEq, Repr

/-- `NotificationType` from the Notification model. -/
inductive NotificationType
  | NEW_APPLICATION
  | STATUS_CHANGED
  | NEW_REVIEW
  | NEW_POST_MATCH
deriving DecidableEq, Repr

/-- A Notification document (the fields `createNotification` writes). -/
structure Notification where
  userId : Nat
  type : NotificationType
  title : String
  message : String
  link : Option String
deriving DecidableEq, Repr

/-- The persisted state: the four collections touched by the lifecycle
core plus the notifications collection, and the persistence layer's
fresh-id counter. -/
structure DB where
  posts : List Post
  applications : List Application
  reviews : List Review
  users : List User
  notifications : List Notification
  nextId : Nat
deriving DecidableEq, Repr

/-- `ServicePost.findById`. -/
def findPost (db : DB) (id : Nat) : Option Post :=
  db.posts.find? (fun p => p.id == id)

/-- `Application.findById`. -/
def findApplication (db : DB) (id : Nat) : Option Application :=
  db.applications.find? (fun a => a.id == id)

/-- `Review.findById`. -/
def findReview (db : DB) (id : Nat) : Option Review :=
  db.reviews.find? (fun r => r.id == id)

/-- `Application.findOne({postId, providerId})` existence check used by
the duplicate-application pre-check. -/
def hasApplicationFor (db : DB) (postId providerId : Nat) : Bool :=
  db.applications.any (fun a => a.postId == postId && a.providerId == providerId)

/-- `Review.findOne({applicationId})` existence check used by the
duplicate-review pre-check. -/
def hasReviewFor (db : DB) (applicationId : Nat) : Bool :=
  db.reviews.any (fun r => r.applicationId == applicationId)

/-- Errors raised by the persistence layer. `duplicateKey` is Mongo
error code 11000, raised when a write violates a unique index. -/
inductive DbError
  | duplicateKey
deriving DecidableEq, Repr

/-- `Application.create` under the unique compound index
`{postId: 1, providerId: 1}` of the Application schema: the write is
refused with a duplicate-key error when an application for the same
(post, provider) pair is already stored. -/
def applicationIndexedCreate (apps : List Application) (a : Application) :
    Except DbError (List Application) :=
  if apps.any (fun b => b.postId == a.postId && b.providerId == a.providerId) then
    .error .duplicateKey
  else
    .ok (apps ++ [a])

/-- `Review.create` under the `unique: true` index on `applicationId`
of the Review schema. -/
def reviewIndexedCreate (rs : List Review) (r : Review) :
    Except DbError (List Review) :=
  if rs.any (fun b => b.applicationId == r.applicationId) then
    .error .duplicateKey
  else
    .ok (rs ++ [r])

/-- The error responses produced by the modelled handlers, one
constructor per distinct error branch in the source. -/
inductive ApiError
  | unauthenticated
  | roleForbidden
  | validationFailed
  | postNotFound
  | postNotOpen
  | selfApplication
  | duplicateApplication
  | applicationNotFound
  | notPostOwner
  | notYourApplication
  | applicationNotPending
  | applicationNotAccepted
  | duplicateReview
  | reviewNotFound
  | notYourReview
deriving DecidableEq, Repr

/-- The HTTP status code each error branch responds with in the source. -/
def httpStatus : ApiError → Nat
  | .unauthenticated => 401
  | .roleForbidden => 403
  | .validationFailed => 400
  | .postNotFound => 404
  | .postNotOpen => 400
  | .selfApplication => 400
  | .duplicateApplication => 409
  | .applicationNotFound => 404
  | .notPostOwner => 403
  | .notYourApplication => 403
  | .applicationNotPending => 400
  | .applicationNotAccepted => 400
  | .duplicateReview => 409
  | .reviewNotFound => 404
  | .notYourReview => 403

/-- The abstract error vocabulary of the specification (§7). -/
inductive ErrKind
  | Unauthenticated
  | Forbidden
  | NotFound
  | InvalidState
  | ValidationFailed
  | Conflict
deriving DecidableEq, Repr

/-- Modelled from the spec (§7 error taxonomy): classifies each
concrete handler error branch into the spec's abstract error kinds.
`Forbidden` is "role or ownership mismatch" (the spec assigns
self-application, an ownership comparison, to `Forbidden` even though
the HTTP layer emits 400 there; §6 places HTTP status shaping outside
the spec), `NotFound` a missing referenced entity, `InvalidState` an
operation invalid for the entity's current status, `Conflict` a
uniqueness violation. -/
def specErrorKind : ApiError → ErrKind
  | .unauthenticated => .Unauthenticated
  | .roleForbidden => .Forbidden
  | .validationFailed => .ValidationFailed
  | .postNotFound => .NotFound
  | .postNotOpen => .InvalidState
  | .selfApplication => .Forbidden
  | .duplicateApplication => .Conflict
  | .applicationNotFound => .NotFound
  | .notPostOwner => .Forbidden
  | .notYourApplication => .Forbidden
  | .applicationNotPending => .InvalidState
  | .applicationNotAccepted => .InvalidState
  | .duplicateReview => .Conflict
  | .reviewNotFound => .NotFound
  | .notYourReview => .Forbidden

/-- `createNotification` from `lib/notifications.ts`: tries
`Notification.create` and swallows any failure ("Non-critical — log
but never fail the parent operation").  The environment flag
`sinkFails` says whether the underlying `Notification.create` throws
on this request; when it does, the error is caught and the state is
left unchanged. -/
def createNotification (sinkFails : Bool) (db : DB) (n : Notification) : DB :=
  if sinkFails then db
  else { db with notifications := db.notifications ++ [n] }

/-- Catch clause of `POST /api/applications`: a Mongo duplicate-key
error (code 11000) from the write is mapped to the same 409
"You have already applied to this post" response the pre-check
produces ("race condition safety net"). -/
def catchDuplicateApplication (r : Except DbError (List Application)) :
    Except ApiError (List Application) :=
  match r with
  | .error .duplicateKey => .error .duplicateApplication
  | .ok l => .ok l

/-- Catch clause of `POST /api/reviews`: code 11000 maps to the 409
"Review already submitted" response. -/
def catchDuplicateReview (r : Except DbError (List Review)) :
    Except ApiError (List Review) :=
  match r with
  | .error .duplicateKey => .error .duplicateReview
  | .ok l => .ok l

/-- `POST /api/applications` (apply to a post).  Guards in source
order: session present; role `PROVIDER`; body valid (message length
10–1000 per `CreateApplicationSchema`); post exists (404); post status
`OPEN` (400); no self-application (400); no existing application for
(post, provider) (409).  On success: persist the new application with
default status `PENDING` (through the unique compound index, whose
violation the catch clause maps to 409) and notify the post owner. -/
def applyToPost (sinkFails : Bool) (db : DB) (session : Option Session)
    (postId : Nat) (message : String) : Except ApiError (DB × Application) :=
  match session with
  | none => .error .unauthenticated
  | some s =>
    if s.role ≠ Role.PROVIDER then .error .roleForbidden
    else if ¬ (10 ≤ message.length ∧ message.length ≤ 1000) then .error .validationFailed
    else
      match findPost db postId with
      | none => .error .postNotFound
      | some post =>
        if post.status ≠ PostStatus.OPEN then .error .postNotOpen
        else if post.userId == s.userId then .error .selfApplication
        else if hasApplicationFor db postId s.userId then .error .duplicateApplication
        else
          let app : Application :=
            { id := db.nextId, postId := postId, providerId := s.userId,
              message := message, status := AppStatus.PENDING }
          match catchDuplicateApplication (applicationIndexedCreate db.applications app) with
          | .error e => .error e
          | .ok apps =>
            let db1 : DB := { db with applications := apps, nextId := db.nextId + 1 }
            let db2 := createNotification sinkFails db1
              { userId := post.userId, type := .NEW_APPLICATION,
                title := "New Application Received",
                message := "A provider applied to your post \"" ++ post.title ++ "\"",
                link := some "/dashboard/seeker" }
            .ok (db2, app)

/-- The request body of `PATCH /api/applications/[id]` after parsing:
`UpdateStatusSchema = z.object({ status: z.enum(['ACCEPTED','REJECTED']) })`
admits exactly these two values. -/
inductive Decision
  | ACCEPTED
  | REJECTED
deriving DecidableEq, Repr

/-- The application status a parsed decision writes. -/
def Decision.toStatus : Decision → AppStatus
  | .ACCEPTED => AppStatus.ACCEPTED
  | .REJECTED => AppStatus.REJECTED

/-- `PATCH /api/applications/[id]` (seeker decides on an application).
Guards in source order: session; role `SEEKER`; application exists
(404); the seeker owns the application's post — a missing post and a
foreign post both take the 403 branch (`if (!post || post.userId !==
session.userId)`); body is a valid decision (handled by the `Decision`
type).  Effect: `findByIdAndUpdate(id, {status})` — the current status
is NOT examined; if the decision is `ACCEPTED` the post is updated to
`CLOSED`; the provider is notified. -/
def updateApplicationStatus (sinkFails : Bool) (db : DB) (session : Option Session)
    (id : Nat) (decision : Decision) : Except ApiError (DB × Application) :=
  match session with
  | none => .error .unauthenticated
  | some s =>
    if s.role ≠ Role.SEEKER then .error .roleForbidden
    else
      match findApplication db id with
      | none => .error .applicationNotFound
      | some app =>
        match findPost db app.postId with
        | none => .error .notPostOwner
        | some post =>
          if post.userId ≠ s.userId then .error .notPostOwner
          else
            let status := decision.toStatus
            let updated : Application := { app with status := status }
            let setStatus := fun (a : Application) =>
              if a.id == id then { a with status := status } else a
            let closePost := fun (p : Post) =>
              if p.id == app.postId then { p with status := PostStatus.CLOSED } else p
            let db1 : DB := { db with applications := db.applications.map setStatus }
            let db2 : DB :=
              if decision = Decision.ACCEPTED then
                { db1 with posts := db1.posts.map closePost }
              else db1
            let db3 := createNotification sinkFails db2
              { userId := app.providerId, type := .STATUS_CHANGED,
                title := if decision = Decision.ACCEPTED then "Application Accepted!"
                         else "Application Update",
                message := if decision = Decision.ACCEPTED then
                    "Your application for \"" ++ post.title ++ "\" has been accepted!"
                  else
                    "Your application for \"" ++ post.title ++ "\" was not selected.",
                link := some "/dashboard/provider" }
            .ok (db3, updated)

/-- `DELETE /api/applications/[id]` (provider withdraws a pending
application).  Guards in source order: session; role `PROVIDER`;
application exists (404); the caller is its provider (403); status is
`PENDING` (400, "Only pending applications can be withdrawn").
Effect: `findByIdAndDelete(id)`. -/
def withdrawApplication (db : DB) (session : Option Session) (id : Nat) :
    Except ApiError DB :=
  match session with
  | none => .error .unauthenticated
  | some s =>
    if s.role ≠ Role.PROVIDER then .error .roleForbidden
    else
      match findApplication db id with
      | none => .error .applicationNotFound
      | some app =>
        if app.providerId ≠ s.userId then .error .notYourApplication
        else if app.status ≠ AppStatus.PENDING then .error .applicationNotPending
        else .ok { db with applications := db.applications.filter (fun a => ¬ a.id == id) }

/-- `POST /api/posts` (seeker creates a post).  Guards: session; role
`SEEKER`; body valid (title length 5–100 per `CreatePostSchema`; the
other body fields are not carried by the model).  The created post
gets the schema default status `OPEN`. -/
def createPost (db : DB) (session : Option Session) (title : String) :
    Except ApiError (DB × Post) :=
  match session with
  | none => .error .unauthenticated
  | some s =>
    if s.role ≠ Role.SEEKER then .error .roleForbidden
    else if ¬ (5 ≤ title.length ∧ title.length ≤ 100) then .error .validationFailed
    else
      let post : Post := { id := db.nextId, userId := s.userId,
                           title := title, status := PostStatus.OPEN }
      .ok ({ db with posts := db.posts ++ [post], nextId := db.nextId + 1 }, post)

/-- The request body of `PATCH /api/posts/[id]` restricted to the
modelled fields of `UpdatePostSchema`: optional `status` and optional
`title`. -/
structure PostUpdate where
  status : Option PostStatus
  title : Option String
deriving DecidableEq, Repr

/-- `PATCH /api/posts/[id]` (owner edits a post).  Guards in source
order: session; role `SEEKER`; post exists (404); caller owns it
(403).  Effect: `findByIdAndUpdate(id, data)` applies the supplied
fields onto the document. -/
def updatePost (db : DB) (session : Option Session) (id : Nat) (u : PostUpdate) :
    Except ApiError DB :=
  match session with
  | none => .error .unauthenticated
  | some s =>
    if s.role ≠ Role.SEEKER then .error .roleForbidden
    else
      match findPost db id with
      | none => .error .postNotFound
      | some post =>
        if post.userId ≠ s.userId then .error .notPostOwner
        else
          let apply1 := fun (p : Post) =>
            if p.id == id then
              { p with status := u.status.getD p.status, title := u.title.getD p.title }
            else p
          .ok { db with posts := db.posts.map apply1 }

/-- `DELETE /api/posts/[id]` (owner deletes a post).  Guards in source
order: session; role `SEEKER`; post exists (404); caller owns it
(403).  Effect: `Application.deleteMany({postId: id})` (cascade) then
`ServicePost.findByIdAndDelete(id)`. -/
def deletePost (db : DB) (session : Option Session) (id : Nat) :
    Except ApiError DB :=
  match session with
  | none => .error .unauthenticated
  | some s =>
    if s.role ≠ Role.SEEKER then .error .roleForbidden
    else
      match findPost db id with
      | none => .error .postNotFound
      | some post =>
        if post.userId ≠ s.userId then .error .notPostOwner
        else .ok { db with
          applications := db.applications.filter (fun a => ¬ a.postId == id),
          posts := db.posts.filter (fun p => ¬ p.id == id) }

/-- The reviews naming `providerId` as subject — the `$match` stage of
the rating aggregation pipeline. -/
def reviewsOf (reviews : List Review) (providerId : Nat) : List Review :=
  reviews.filter (fun r => r.providerId == providerId)

/-- Sum of the ratings of a list of reviews (the data `$avg: '$rating'`
averages). -/
def ratingSum (rs : List Review) : ℚ :=
  (rs.map (fun r => (r.rating : ℚ))).sum

/-- `Math.round(avg * 10) / 10` applied to the mean rating of a
nonempty list of reviews: the arithmetic mean rounded to one decimal
place (JS `Math.round` is `⌊x + 1/2⌋`, as is Mathlib's `round` on
`ℚ`). -/
def roundedAvgRating (rs : List Review) : ℚ :=
  ((round ((ratingSum rs / (rs.length : ℚ)) * 10) : ℤ) : ℚ) / 10

/-- `User.findByIdAndUpdate(providerId, {averageRating, reviewCount})`. -/
def updateUserRating (users : List User) (providerId : Nat) (avg : ℚ) (cnt : Nat) :
    List User :=
  users.map (fun u => if u.id == providerId then
      { u with averageRating := avg, reviewCount := cnt }
    else u)

/-- Rating recomputation as performed after `Review.create` in
`POST /api/reviews`: aggregate over the provider's reviews; the user
record is updated only when the aggregation returned a group
(`if (stats.length > 0)`), i.e. when at least one review names the
provider. -/
def recomputeRatingAfterCreate (db : DB) (providerId : Nat) : DB :=
  let rs := reviewsOf db.reviews providerId
  if rs.length > 0 then
    { db with users := updateUserRating db.users providerId (roundedAvgRating rs) rs.length }
  else db

/-- Rating recomputation as performed after `findByIdAndDelete` in
`DELETE /api/reviews/[id]`: when no review remains the aggregation
returns no group and the user record is reset to average 0, count 0. -/
def recomputeRatingAfterDelete (db : DB) (providerId : Nat) : DB :=
  let rs := reviewsOf db.reviews providerId
  let avg : ℚ := if rs.length > 0 then roundedAvgRating rs else 0
  { db with users := updateUserRating db.users providerId avg rs.length }

/-- `POST /api/reviews` (seeker reviews an accepted application).
Guards in source order: session; role `SEEKER`; body valid (rating an
integer 1–5 per `CreateReviewSchema`); application exists (404);
application status `ACCEPTED` (400); the caller owns the application's
post — missing post and foreign post both take the 403 branch
(`if (!post || post.userId !== session.userId)`); no existing review
for the application (409).  On success: persist the review (through
the unique index on `applicationId`, whose violation the catch clause
maps to 409), recompute the provider's rating, notify the provider. -/
def createReview (sinkFails : Bool) (db : DB) (session : Option Session)
    (applicationId rating : Nat) (comment : Option String) :
    Except ApiError (DB × Review) :=
  match session with
  | none => .error .unauthenticated
  | some s =>
    if s.role ≠ Role.SEEKER then .error .roleForbidden
    else if ¬ (1 ≤ rating ∧ rating ≤ 5) then .error .validationFailed
    else
      match findApplication db applicationId with
      | none => .error .applicationNotFound
      | some app =>
        if app.status ≠ AppStatus.ACCEPTED then .error .applicationNotAccepted
        else
          match findPost db app.postId with
          | none => .error .notPostOwner
          | some post =>
            if post.userId ≠ s.userId then .error .notPostOwner
            else if hasReviewFor db applicationId then .error .duplicateReview
            else
              let review : Review :=
                { id := db.nextId, seekerId := s.userId, providerId := app.providerId,
                  applicationId := applicationId, rating := rating, comment := comment }
              match catchDuplicateReview (reviewIndexedCreate db.reviews review) with
              | .error e => .error e
              | .ok rs =>
                let db1 : DB := { db with reviews := rs, nextId := db.nextId + 1 }
                let db2 := recomputeRatingAfterCreate db1 app.providerId
                let db3 := createNotification sinkFails db2
                  { userId := app.providerId, type := .NEW_REVIEW,
                    title := "You received a new review",
                    message := "A seeker left you a review.",
                    link := some "/dashboard/provider" }
                .ok (db3, review)

/-- `DELETE /api/reviews/[id]` (seeker deletes an own review).  Guards
in source order: session (no role gate in the source); review exists
(404); the caller authored it (403).  Effect: `findByIdAndDelete(id)`
then recompute the provider's rating (resetting to 0/0 when no review
remains). -/
def deleteReview (db : DB) (session : Option Session) (id : Nat) :
    Except ApiError DB :=
  match session with
  | none => .error .unauthenticated
  | some s =>
    match findReview db id with
    | none => .error .reviewNotFound
    | some review =>
      if review.seekerId ≠ s.userId then .error .notYourReview
      else
        let db1 : DB := { db with reviews := db.reviews.filter (fun r => ¬ r.id == id) }
        .ok (recomputeRatingAfterDelete db1 review.providerId)

/-- `POST /api/auth/register` restricted to the modelled User fields:
a fresh user is created with the schema defaults `averageRating = 0`,
`reviewCount = 0`. -/
def registerUser (db : DB) (name : String) (role : Role) : DB × User :=
  let user : User := { id := db.nextId, name := name, role := role,
                       averageRating := 0, reviewCount := 0 }
  ({ db with users := db.users ++ [user], nextId := db.nextId + 1 }, user)

/-- Decidable equality of handler results, for evaluating the model on
concrete states. -/
instance instDecEqExcept {e a : Type} [DecidableEq e] [DecidableEq a] :
    DecidableEq (Except e a) := fun x y =>
  match x, y with
  | .error u, .error v =>
    if h : u = v then isTrue (by rw [h]) else isFalse (by intro hh; cases hh; exact h rfl)
  | .ok u, .ok v =>
    if h : u = v then isTrue (by rw [h]) else isFalse (by intro hh; cases hh; exact h rfl)
  | .error _, .ok _ => isFalse (by intro hh; cases hh)
  | .ok _, .error _ => isFalse (by intro hh; cases hh)

/-! ## Transition system and invariants -/

/-- The empty initial database. -/
def DB.init : DB :=
  { posts := [], applications := [], reviews := [], users := [],
    notifications := [], nextId := 0 }

/-- One successful state-changing request of the modelled system. -/
inductive Step : DB → DB → Prop
  | registerStep (db : DB) (name : String) (role : Role) :
      Step db (registerUser db name role).1
  | createPostStep (db : DB) (s : Option Session) (title : String) (db' : DB) (p : Post) :
      createPost db s title = .ok (db', p) → Step db db'
  | updatePostStep (db : DB) (s : Option Session) (id : Nat) (u : PostUpdate) (db' : DB) :
      updatePost db s id u = .ok db' → Step db db'
  | deletePostStep (db : DB) (s : Option Session) (id : Nat) (db' : DB) :
      deletePost db s id = .ok db' → Step db db'
  | applyStep (sf : Bool) (db : DB) (s : Option Session) (pid : Nat) (m : String)
      (db' : DB) (a : Application) :
      applyToPost sf db s pid m = .ok (db', a) → Step db db'
  | decideStep (sf : Bool) (db : DB) (s : Option Session) (id : Nat) (d : Decision)
      (db' : DB) (a : Application) :
      updateApplicationStatus sf db s id d = .ok (db', a) → Step db db'
  | withdrawStep (db : DB) (s : Option Session) (id : Nat) (db' : DB) :
      withdrawApplication db s id = .ok db' → Step db db'
  | createReviewStep (sf : Bool) (db : DB) (s : Option Session) (aid rating : Nat)
      (c : Option String) (db' : DB) (r : Review) :
      createReview sf db s aid rating c = .ok (db', r) → Step db db'
  | deleteReviewStep (db : DB) (s : Option Session) (id : Nat) (db' : DB) :
      deleteReview db s id = .ok db' → Step db db'

/-- States reachable from the empty database through the operations. -/
inductive Reachable : DB → Prop
  | init : Reachable DB.init
  | step {db db' : DB} : Reachable db → Step db db' → Reachable db'

/-- Referential integrity: every Application references an existing Post. -/
def AppsRefPosts (db : DB) : Prop :=
  ∀ a ∈ db.applications, ∃ p ∈ db.posts, p.id = a.postId

/-- At most one Application per (post, provider) pair. -/
def UniqueApplications (db : DB) : Prop :=
  db.applications.Pairwise
    (fun a b => ¬ (a.postId = b.postId ∧ a.providerId = b.providerId))

/-! ## Component-preservation helper lemmas -/

@[simp] lemma createNotification_posts (sf : Bool) (db : DB) (n : Notification) :
    (createNotification sf db n).posts = db.posts := by
  unfold createNotification; split <;> rfl

@[simp] lemma createNotification_applications (sf : Bool) (db : DB) (n : Notification) :
    (createNotification sf db n).applications = db.applications := by
  unfold createNotification; split <;> rfl

@[simp] lemma createNotification_reviews (sf : Bool) (db : DB) (n : Notification) :
    (createNotification sf db n).reviews = db.reviews := by
  unfold createNotification; split <;> rfl

@[simp] lemma createNotification_users (sf : Bool) (db : DB) (n : Notification) :
    (createNotification sf db n).users = db.users := by
  unfold createNotification; split <;> rfl

@[simp] lemma createNotification_nextId (sf : Bool) (db : DB) (n : Notification) :
    (createNotification sf db n).nextId = db.nextId := by
  unfold createNotification; split <;> rfl

@[simp] lemma recomputeRatingAfterCreate_posts (db : DB) (pid : Nat) :
    (recomputeRatingAfterCreate db pid).posts = db.posts := by
  unfold recomputeRatingAfterCreate; dsimp only; split <;> rfl

@[simp] lemma recomputeRatingAfterCreate_applications (db : DB) (pid : Nat) :
    (recomputeRatingAfterCreate db pid).applications = db.applications := by
  unfold recomputeRatingAfterCreate; dsimp only; split <;> rfl

@[simp] lemma recomputeRatingAfterCreate_reviews (db : DB) (pid : Nat) :
    (recomputeRatingAfterCreate db pid).reviews = db.reviews := by
  unfold recomputeRatingAfterCreate; dsimp only; split <;> rfl

@[simp] lemma recomputeRatingAfterCreate_nextId (db : DB) (pid : Nat) :
    (recomputeRatingAfterCreate db pid).nextId = db.nextId := by
  unfold recomputeRatingAfterCreate; dsimp only; split <;> rfl

@[simp] lemma recomputeRatingAfterDelete_posts (db : DB) (pid : Nat) :
    (recomputeRatingAfterDelete db pid).posts = db.posts := rfl

@[simp] lemma recomputeRatingAfterDelete_applications (db : DB) (pid : Nat) :
    (recomputeRatingAfterDelete db pid).applications = db.applications := rfl

@[simp] lemma recomputeRatingAfterDelete_reviews (db : DB) (pid : Nat) :
    (recomputeRatingAfterDelete db pid).reviews = db.reviews := rfl

@[simp] lemma recomputeRatingAfterDelete_nextId (db : DB) (pid : Nat) :
    (recomputeRatingAfterDelete db pid).nextId = db.nextId := rfl

/-! ## Inversion lemmas: what a successful operation did -/

/-- Successful apply: all guards passed and the new `PENDING`
application was appended; nothing else in the business state changed. -/
lemma applyToPost_ok_inv {sf : Bool} {db : DB} {s : Session} {pid : Nat} {m : String}
    {db' : DB} {app : Application}
    (h : applyToPost sf db (some s) pid m = .ok (db', app)) :
    s.role = Role.PROVIDER ∧ (10 ≤ m.length ∧ m.length ≤ 1000) ∧
    ∃ post, findPost db pid = some post ∧ post.status = PostStatus.OPEN ∧
      post.userId ≠ s.userId ∧ hasApplicationFor db pid s.userId = false ∧
      app = ⟨db.nextId, pid, s.userId, m, AppStatus.PENDING⟩ ∧
      db'.posts = db.posts ∧ db'.applications = db.applications ++ [app] ∧
      db'.reviews = db.reviews ∧ db'.users = db.users ∧ db'.nextId = db.nextId + 1 := by
  unfold applyToPost at h
  simp only [hasApplicationFor, applicationIndexedCreate, catchDuplicateApplication] at *
  split at h
  · exact absurd h (by simp)
  rename_i hrole
  split at h
  · exact absurd h (by simp)
  rename_i hmsg
  split at h
  · exact absurd h (by simp)
  rename_i post hfind
  split at h
  · exact absurd h (by simp)
  rename_i hopen
  split at h
  · exact absurd h (by simp)
  rename_i hself
  split at h
  · exact absurd h (by simp)
  rename_i hdup
  split at h
  · simp_all
  simp only [Except.ok.injEq, Prod.mk.injEq] at h
  refine ⟨not_not.mp hrole, not_not.mp hmsg, post, hfind, not_not.mp hopen,
    by simpa using hself, by simpa using hdup, ?_⟩
  obtain ⟨hdb', happ⟩ := h
  subst hdb' happ
  simp_all

/-- Successful status update: role and ownership checks passed and the
status was written unconditionally; the post was closed exactly when
the decision was `ACCEPTED`. -/
lemma updateApplicationStatus_ok_inv {sf : Bool} {db : DB} {s : Session} {id : Nat}
    {d : Decision} {db' : DB} {upd : Application}
    (h : updateApplicationStatus sf db (some s) id d = .ok (db', upd)) :
    s.role = Role.SEEKER ∧ ∃ app post, findApplication db id = some app ∧
      findPost db app.postId = some post ∧ post.userId = s.userId ∧
      upd = { app with status := d.toStatus } ∧
      db'.applications = db.applications.map
        (fun a => if a.id == id then { a with status := d.toStatus } else a) ∧
      db'.posts = (if d = Decision.ACCEPTED then
          db.posts.map (fun p => if p.id == app.postId then
            { p with status := PostStatus.CLOSED } else p)
        else db.posts) ∧
      db'.reviews = db.reviews ∧ db'.users = db.users ∧ db'.nextId = db.nextId := by
  unfold updateApplicationStatus at h
  by_cases hrole : s.role = Role.SEEKER
  case neg => simp [hrole] at h
  cases hfindA : findApplication db id with
  | none => simp only [hfindA] at h; simp [hrole] at h
  | some app =>
  simp only [hfindA] at h
  cases hfindP : findPost db app.postId with
  | none => simp only [hfindP] at h; simp [hrole] at h
  | some post =>
  simp only [hfindP] at h
  by_cases howner : post.userId = s.userId
  case neg => simp [hrole, howner] at h
  simp only [hrole, howner, ne_eq, not_true_eq_false, if_false, ite_false,
    Except.ok.injEq, Prod.mk.injEq] at h
  obtain ⟨hdb', hupd⟩ := h
  subst hdb' hupd
  refine ⟨hrole, app, post, rfl, hfindP, howner, rfl, ?_, ?_, ?_, ?_, ?_⟩ <;>
    ((try split) <;> simp)

/-- Successful withdrawal: the caller's own `PENDING` application was
removed from the collection. -/
lemma withdrawApplication_ok_inv {db : DB} {s : Session} {id : Nat} {db' : DB}
    (h : withdrawApplication db (some s) id = .ok db') :
    s.role = Role.PROVIDER ∧ ∃ app, findApplication db id = some app ∧
      app.providerId = s.userId ∧ app.status = AppStatus.PENDING ∧
      db' = { db with applications := db.applications.filter (fun a => ¬ a.id == id) } := by
  unfold withdrawApplication at h
  by_cases hrole : s.role = Role.PROVIDER
  case neg => simp [hrole] at h
  cases hfindA : findApplication db id with
  | none => simp only [hfindA] at h; simp [hrole] at h
  | some app =>
  simp only [hfindA] at h
  by_cases howner : app.providerId = s.userId
  case neg => simp [hrole, howner] at h
  by_cases hst : app.status = AppStatus.PENDING
  case neg => simp [hrole, howner, hst] at h
  simp only [hrole, howner, hst, ne_eq, not_true_eq_false, if_false, ite_false,
    Except.ok.injEq] at h
  exact ⟨hrole, app, rfl, howner, hst, h.symm⟩

/-- Successful post creation: a fresh `OPEN` post was appended. -/
lemma createPost_ok_inv {db : DB} {s : Session} {title : String} {db' : DB} {p : Post}
    (h : createPost db (some s) title = .ok (db', p)) :
    s.role = Role.SEEKER ∧
      p = ⟨db.nextId, s.userId, title, PostStatus.OPEN⟩ ∧
      db' = { db with posts := db.posts ++ [p], nextId := db.nextId + 1 } := by
  unfold createPost at h
  by_cases hrole : s.role = Role.SEEKER
  case neg => simp [hrole] at h
  by_cases hval : 5 ≤ title.length ∧ title.length ≤ 100
  case neg => simp [hrole, hval] at h
  simp only [hrole, hval, ne_eq, not_true_eq_false, not_and, not_false_eq_true,
    if_false, ite_false, and_self, not_true, Except.ok.injEq, Prod.mk.injEq] at h
  obtain ⟨hdb', hp⟩ := h
  subst hp
  exact ⟨hrole, rfl, hdb'.symm⟩

/-- Successful post update: the owner's edit was applied onto the
matching document; ids are never changed. -/
lemma updatePost_ok_inv {db : DB} {s : Session} {id : Nat} {u : PostUpdate} {db' : DB}
    (h : updatePost db (some s) id u = .ok db') :
    s.role = Role.SEEKER ∧ ∃ post, findPost db id = some post ∧ post.userId = s.userId ∧
      db' = { db with posts := db.posts.map (fun p => if p.id == id then
          { p with status := u.status.getD p.status, title := u.title.getD p.title }
        else p) } := by
  unfold updatePost at h
  by_cases hrole : s.role = Role.SEEKER
  case neg => simp [hrole] at h
  cases hfindP : findPost db id with
  | none => simp only [hfindP] at h; simp [hrole] at h
  | some post =>
  simp only [hfindP] at h
  by_cases howner : post.userId = s.userId
  case neg => simp [hrole, howner] at h
  simp only [hrole, howner, ne_eq, not_true_eq_false, if_false, ite_false,
    Except.ok.injEq] at h
  exact ⟨hrole, post, rfl, howner, h.symm⟩

/-- Successful post deletion: all applications referencing the post
were removed (cascade), then the post itself; reviews, users and the
id counter are untouched. -/
lemma deletePost_ok_inv {db : DB} {s : Session} {id : Nat} {db' : DB}
    (h : deletePost db (some s) id = .ok db') :
    s.role = Role.SEEKER ∧ ∃ post, findPost db id = some post ∧ post.userId = s.userId ∧
      db' = { db with
        applications := db.applications.filter (fun a => ¬ a.postId == id),
        posts := db.posts.filter (fun p => ¬ p.id == id) } := by
  unfold deletePost at h
  by_cases hrole : s.role = Role.SEEKER
  case neg => simp [hrole] at h
  cases hfindP : findPost db id with
  | none => simp only [hfindP] at h; simp [hrole] at h
  | some post =>
  simp only [hfindP] at h
  by_cases howner : post.userId = s.userId
  case neg => simp [hrole, howner] at h
  simp only [hrole, howner, ne_eq, not_true_eq_false, if_false, ite_false,
    Except.ok.injEq] at h
  exact ⟨hrole, post, rfl, howner, h.symm⟩

/-- Successful review creation: all guards passed, the review was
appended, and the provider's stored rating became the rounded mean of
the provider's reviews including the new one. -/
lemma createReview_ok_inv {sf : Bool} {db : DB} {s : Session} {aid rating : Nat}
    {c : Option String} {db' : DB} {rv : Review}
    (h : createReview sf db (some s) aid rating c = .ok (db', rv)) :
    s.role = Role.SEEKER ∧ (1 ≤ rating ∧ rating ≤ 5) ∧
    ∃ app post, findApplication db aid = some app ∧ app.status = AppStatus.ACCEPTED ∧
      findPost db app.postId = some post ∧ post.userId = s.userId ∧
      hasReviewFor db aid = false ∧
      rv = ⟨db.nextId, s.userId, app.providerId, aid, rating, c⟩ ∧
      db'.posts = db.posts ∧ db'.applications = db.applications ∧
      db'.reviews = db.reviews ++ [rv] ∧ db'.nextId = db.nextId + 1 ∧
      db'.users = updateUserRating db.users app.providerId
          (roundedAvgRating (reviewsOf (db.reviews ++ [rv]) app.providerId))
          (reviewsOf (db.reviews ++ [rv]) app.providerId).length := by
  unfold createReview at h
  by_cases hrole : s.role = Role.SEEKER
  case neg => simp [hrole] at h
  by_cases hrating : 1 ≤ rating ∧ rating ≤ 5
  case neg => simp [hrole, hrating] at h
  cases hfindA : findApplication db aid with
  | none => simp only [hfindA] at h; simp [hrole, hrating] at h
  | some app =>
  simp only [hfindA] at h
  by_cases hacc : app.status = AppStatus.ACCEPTED
  case neg => simp [hrole, hrating, hacc] at h
  cases hfindP : findPost db app.postId with
  | none => simp only [hfindP] at h; simp [hrole, hrating, hacc] at h
  | some post =>
  simp only [hfindP] at h
  by_cases howner : post.userId = s.userId
  case neg => simp [hrole, hrating, hacc, howner] at h
  by_cases hdup : hasReviewFor db aid = true
  case pos => simp [hrole, hrating, hacc, howner, hdup] at h
  rw [Bool.not_eq_true] at hdup
  have hdup' : (db.reviews.any fun r => r.applicationId == aid) = false := hdup
  simp only [hrole, hrating, hacc, howner, hasReviewFor, reviewIndexedCreate,
    catchDuplicateReview, hdup', ne_eq, not_true_eq_false, if_false, ite_false,
    Bool.false_eq_true, and_self, Except.ok.injEq, Prod.mk.injEq] at h
  obtain ⟨hdb', hrv⟩ := h
  refine ⟨hrole, hrating, app, post, rfl, hacc, hfindP, howner, hdup, hrv.symm, ?_⟩
  subst hdb' hrv
  refine ⟨by simp, by simp, by simp, by simp, ?_⟩
  simp only [createNotification_users]
  unfold recomputeRatingAfterCreate
  have hlen : (0 : Nat) < (reviewsOf (db.reviews ++
      [(⟨db.nextId, s.userId, app.providerId, aid, rating, c⟩ : Review)])
      app.providerId).length := by
    simp [reviewsOf, List.filter_append]
  simp only [reviewsOf] at hlen ⊢
  rw [if_pos hlen]

/-- Successful review deletion: the caller's own review was removed
and the provider's rating was recomputed (0/0 when none remain). -/
lemma deleteReview_ok_inv {db : DB} {s : Session} {id : Nat} {db' : DB}
    (h : deleteReview db (some s) id = .ok db') :
    ∃ rv, findReview db id = some rv ∧ rv.seekerId = s.userId ∧
      db' = recomputeRatingAfterDelete
        { db with reviews := db.reviews.filter (fun r => ¬ r.id == id) } rv.providerId := by
  unfold deleteReview at h
  cases hfindR : findReview db id with
  | none => simp only [hfindR] at h; simp at h
  | some rv =>
  simp only [hfindR] at h
  by_cases howner : rv.seekerId = s.userId
  case neg => simp [howner] at h
  simp only [howner, ne_eq, not_true_eq_false, if_false, ite_false, Except.ok.injEq] at h
  exact ⟨rv, rfl, howner, h.symm⟩
/-! ## Lookup and pre-check helper lemmas -/

lemma findPost_eq_some {db : DB} {pid : Nat} {p : Post}
    (h : findPost db pid = some p) : p ∈ db.posts ∧ p.id = pid := by
  unfold findPost at h
  refine ⟨List.mem_of_find?_eq_some h, ?_⟩
  simpa using List.find?_some h

lemma findApplication_eq_some {db : DB} {id : Nat} {a : Application}
    (h : findApplication db id = some a) : a ∈ db.applications ∧ a.id = id := by
  unfold findApplication at h
  refine ⟨List.mem_of_find?_eq_some h, ?_⟩
  simpa using List.find?_some h

lemma findReview_eq_some {db : DB} {id : Nat} {r : Review}
    (h : findReview db id = some r) : r ∈ db.reviews ∧ r.id = id := by
  unfold findReview at h
  refine ⟨List.mem_of_find?_eq_some h, ?_⟩
  simpa using List.find?_some h

lemma hasApplicationFor_eq_false {db : DB} {pid uid : Nat}
    (h : hasApplicationFor db pid uid = false) :
    ∀ a ∈ db.applications, ¬ (a.postId = pid ∧ a.providerId = uid) := by
  intro a ha
  simp only [hasApplicationFor, List.any_eq_false] at h
  have := h a ha
  simpa using this

lemma hasApplicationFor_eq_true {db : DB} {pid uid : Nat}
    (h : ∃ a ∈ db.applications, a.postId = pid ∧ a.providerId = uid) :
    hasApplicationFor db pid uid = true := by
  simp only [hasApplicationFor, List.any_eq_true]
  obtain ⟨a, ha, h1, h2⟩ := h
  exact ⟨a, ha, by simp [h1, h2]⟩

/-! ## Invariant preservation -/

lemma exists_matching_post_map {posts : List Post} {f : Post → Post}
    (hf : ∀ p, (f p).id = p.id) {x : Nat}
    (h : ∃ p ∈ posts, p.id = x) : ∃ p ∈ posts.map f, p.id = x := by
  obtain ⟨p, hp, hid⟩ := h
  exact ⟨f p, List.mem_map_of_mem f hp, (hf p).trans hid⟩

lemma step_preserves_AppsRefPosts {db db' : DB} (hs : Step db db')
    (hinv : AppsRefPosts db) : AppsRefPosts db' := by
  cases hs with
  | registerStep db name role =>
      intro a ha
      simp only [registerUser] at ha
      exact hinv a ha
  | createPostStep db s title db2 p hok =>
      cases s with
      | none => simp [createPost] at hok
      | some s =>
        obtain ⟨-, -, hdb'⟩ := createPost_ok_inv hok
        subst hdb'
        intro a ha
        obtain ⟨q, hq, hid⟩ := hinv a ha
        exact ⟨q, List.mem_append_left _ hq, hid⟩
  | updatePostStep db s id u db2 hok =>
      cases s with
      | none => simp [updatePost] at hok
      | some s =>
        obtain ⟨-, post, -, -, hdb'⟩ := updatePost_ok_inv hok
        subst hdb'
        intro a ha
        refine exists_matching_post_map ?_ (hinv a ha)
        intro p
        by_cases hp : p.id == id <;> simp [hp]
  | deletePostStep db s id db2 hok =>
      cases s with
      | none => simp [deletePost] at hok
      | some s =>
        obtain ⟨-, post, -, -, hdb'⟩ := deletePost_ok_inv hok
        subst hdb'
        intro a ha
        simp only [List.mem_filter] at ha
        obtain ⟨ha, hne⟩ := ha
        obtain ⟨q, hq, hid⟩ := hinv a ha
        refine ⟨q, List.mem_filter.mpr ⟨hq, ?_⟩, hid⟩
        simpa [hid] using hne
  | applyStep sf db s pid m db2 a hok =>
      cases s with
      | none => simp [applyToPost] at hok
      | some s =>
        obtain ⟨-, -, post, hfind, -, -, -, happ, hposts, happs, -⟩ := applyToPost_ok_inv hok
        intro b hb
        rw [happs] at hb
        rw [hposts]
        rcases List.mem_append.mp hb with hb | hb
        · exact hinv b hb
        · obtain ⟨hpmem, hpid⟩ := findPost_eq_some hfind
          have hb' : b = a := List.mem_singleton.mp hb
          subst hb' happ
          exact ⟨post, hpmem, hpid⟩
  | decideStep sf db s id d db2 a hok =>
      cases s with
      | none => simp [updateApplicationStatus] at hok
      | some s =>
        obtain ⟨-, app, post, -, -, -, -, happs, hposts, -⟩ :=
          updateApplicationStatus_ok_inv hok
        intro b hb
        rw [happs] at hb
        rw [hposts]
        obtain ⟨b0, hb0, hb0eq⟩ := List.mem_map.mp hb
        have hpostId : b.postId = b0.postId := by
          subst hb0eq
          by_cases h0 : b0.id == id <;> simp [h0]
        rw [hpostId]
        split
        · refine exists_matching_post_map ?_ (hinv b0 hb0)
          intro p
          by_cases hp : p.id == app.postId <;> simp [hp]
        · exact hinv b0 hb0
  | withdrawStep db s id db2 hok =>
      cases s with
      | none => simp [withdrawApplication] at hok
      | some s =>
        obtain ⟨-, app, -, -, -, hdb'⟩ := withdrawApplication_ok_inv hok
        subst hdb'
        intro a ha
        exact hinv a (List.mem_of_mem_filter ha)
  | createReviewStep sf db s aid rating c db2 r hok =>
      cases s with
      | none => simp [createReview] at hok
      | some s =>
        obtain ⟨-, -, app, post, -, -, -, -, -, -, hposts, happs, -⟩ :=
          createReview_ok_inv hok
        intro a ha
        rw [happs] at ha
        rw [hposts]
        exact hinv a ha
  | deleteReviewStep db s id db2 hok =>
      cases s with
      | none => simp [deleteReview] at hok
      | some s =>
        obtain ⟨rv, -, -, hdb'⟩ := deleteReview_ok_inv hok
        subst hdb'
        intro a ha
        simp only [recomputeRatingAfterDelete_applications] at ha
        have := hinv a ha
        simpa [recomputeRatingAfterDelete] using this

lemma step_preserves_UniqueApplications {db db' : DB} (hs : Step db db')
    (hinv : UniqueApplications db) : UniqueApplications db' := by
  cases hs with
  | registerStep db name role =>
      simpa only [UniqueApplications, registerUser] using hinv
  | createPostStep db s title db2 p hok =>
      cases s with
      | none => simp [createPost] at hok
      | some s =>
        obtain ⟨-, -, hdb'⟩ := createPost_ok_inv hok
        subst hdb'
        exact hinv
  | updatePostStep db s id u db2 hok =>
      cases s with
      | none => simp [updatePost] at hok
      | some s =>
        obtain ⟨-, post, -, -, hdb'⟩ := updatePost_ok_inv hok
        subst hdb'
        exact hinv
  | deletePostStep db s id db2 hok =>
      cases s with
      | none => simp [deletePost] at hok
      | some s =>
        obtain ⟨-, post, -, -, hdb'⟩ := deletePost_ok_inv hok
        subst hdb'
        exact hinv.sublist (List.filter_sublist _)
  | applyStep sf db s pid m db2 a hok =>
      cases s with
      | none => simp [applyToPost] at hok
      | some s =>
        obtain ⟨-, -, post, -, -, -, hnodup, happ, -, happs, -⟩ := applyToPost_ok_inv hok
        unfold UniqueApplications
        rw [happs, List.pairwise_append]
        refine ⟨hinv, by simp, ?_⟩
        intro b hb c hc
        have hc' : c = a := List.mem_singleton.mp hc
        subst hc' happ
        exact hasApplicationFor_eq_false hnodup b hb
  | decideStep sf db s id d db2 a hok =>
      cases s with
      | none => simp [updateApplicationStatus] at hok
      | some s =>
        obtain ⟨-, app, post, -, -, -, -, happs, -⟩ := updateApplicationStatus_ok_inv hok
        unfold UniqueApplications
        rw [happs, List.pairwise_map]
        refine hinv.imp ?_
        intro b c hbc
        by_cases hb : b.id == id <;> by_cases hc : c.id == id <;>
          simpa [hb, hc] using hbc
  | withdrawStep db s id db2 hok =>
      cases s with
      | none => simp [withdrawApplication] at hok
      | some s =>
        obtain ⟨-, app, -, -, -, hdb'⟩ := withdrawApplication_ok_inv hok
        subst hdb'
        exact hinv.sublist (List.filter_sublist _)
  | createReviewStep sf db s aid rating c db2 r hok =>
      cases s with
      | none => simp [createReview] at hok
      | some s =>
        obtain ⟨-, -, app, post, -, -, -, -, -, -, -, happs, -⟩ := createReview_ok_inv hok
        unfold UniqueApplications
        rw [happs]
        exact hinv
  | deleteReviewStep db s id db2 hok =>
      cases s with
      | none => simp [deleteReview] at hok
      | some s =>
        obtain ⟨rv, -, -, hdb'⟩ := deleteReview_ok_inv hok
        subst hdb'
        simpa only [UniqueApplications, recomputeRatingAfterDelete_applications] using hinv

lemma reachable_AppsRefPosts {db : DB} (h : Reachable db) : AppsRefPosts db := by
  induction h with
  | init => intro a ha; simp [DB.init] at ha
  | step _ hs ih => exact step_preserves_AppsRefPosts hs ih

lemma reachable_UniqueApplications {db : DB} (h : Reachable db) : UniqueApplications db := by
  induction h with
  | init => simp [UniqueApplications, DB.init]
  | step _ hs ih => exact step_preserves_UniqueApplications hs ih

/-! ## Branch evaluation lemmas: which guard fires on which state -/

lemma applyToPost_eval_postNotFound {sf : Bool} {db : DB} {s : Session} {pid : Nat}
    {m : String} (hrole : s.role = Role.PROVIDER)
    (hmsg : 10 ≤ m.length ∧ m.length ≤ 1000) (hfind : findPost db pid = none) :
    applyToPost sf db (some s) pid m = .error .postNotFound := by
  unfold applyToPost
  simp [hrole, hmsg, hfind]

lemma applyToPost_eval_postNotOpen {sf : Bool} {db : DB} {s : Session} {pid : Nat}
    {m : String} {post : Post} (hrole : s.role = Role.PROVIDER)
    (hmsg : 10 ≤ m.length ∧ m.length ≤ 1000) (hfind : findPost db pid = some post)
    (hopen : post.status ≠ PostStatus.OPEN) :
    applyToPost sf db (some s) pid m = .error .postNotOpen := by
  unfold applyToPost
  simp [hrole, hmsg, hfind, hopen]

lemma applyToPost_eval_selfApplication {sf : Bool} {db : DB} {s : Session} {pid : Nat}
    {m : String} {post : Post} (hrole : s.role = Role.PROVIDER)
    (hmsg : 10 ≤ m.length ∧ m.length ≤ 1000) (hfind : findPost db pid = some post)
    (hopen : post.status = PostStatus.OPEN) (hself : post.userId = s.userId) :
    applyToPost sf db (some s) pid m = .error .selfApplication := by
  unfold applyToPost
  simp [hrole, hmsg, hfind, hopen, hself]

lemma applyToPost_eval_duplicate {sf : Bool} {db : DB} {s : Session} {pid : Nat}
    {m : String} {post : Post} (hrole : s.role = Role.PROVIDER)
    (hmsg : 10 ≤ m.length ∧ m.length ≤ 1000) (hfind : findPost db pid = some post)
    (hopen : post.status = PostStatus.OPEN) (hself : post.userId ≠ s.userId)
    (hdup : hasApplicationFor db pid s.userId = true) :
    applyToPost sf db (some s) pid m = .error .duplicateApplication := by
  unfold applyToPost
  simp [hrole, hmsg, hfind, hopen, hself, hdup]

lemma applyToPost_eval_ok {sf : Bool} {db : DB} {s : Session} {pid : Nat}
    {m : String} {post : Post} (hrole : s.role = Role.PROVIDER)
    (hmsg : 10 ≤ m.length ∧ m.length ≤ 1000) (hfind : findPost db pid = some post)
    (hopen : post.status = PostStatus.OPEN) (hself : post.userId ≠ s.userId)
    (hdup : hasApplicationFor db pid s.userId = false) :
    applyToPost sf db (some s) pid m = .ok
      (createNotification sf
        { db with
          applications := db.applications ++
            [⟨db.nextId, pid, s.userId, m, AppStatus.PENDING⟩],
          nextId := db.nextId + 1 }
        ⟨post.userId, .NEW_APPLICATION, "New Application Received",
          "A provider applied to your post \"" ++ post.title ++ "\"",
          some "/dashboard/seeker"⟩,
       ⟨db.nextId, pid, s.userId, m, AppStatus.PENDING⟩) := by
  have hdup' : (db.applications.any fun b =>
      b.postId == pid && b.providerId == s.userId) = false := hdup
  unfold applyToPost
  simp only [hrole, hmsg, hfind, hopen, hself, hasApplicationFor,
    applicationIndexedCreate, catchDuplicateApplication, hdup', ne_eq,
    beq_iff_eq, not_true_eq_false, if_false, ite_false, Bool.false_eq_true,
    and_self, not_false_eq_true, if_true, ite_true]

lemma updateApplicationStatus_eval_notFound {sf : Bool} {db : DB} {s : Session}
    {id : Nat} {d : Decision} (hrole : s.role = Role.SEEKER)
    (hfind : findApplication db id = none) :
    updateApplicationStatus sf db (some s) id d = .error .applicationNotFound := by
  unfold updateApplicationStatus
  simp [hrole, hfind]

lemma updateApplicationStatus_eval_postMissing {sf : Bool} {db : DB} {s : Session}
    {id : Nat} {d : Decision} {app : Application} (hrole : s.role = Role.SEEKER)
    (hfindA : findApplication db id = some app)
    (hfindP : findPost db app.postId = none) :
    updateApplicationStatus sf db (some s) id d = .error .notPostOwner := by
  unfold updateApplicationStatus
  simp [hrole, hfindA, hfindP]

lemma updateApplicationStatus_eval_notOwner {sf : Bool} {db : DB} {s : Session}
    {id : Nat} {d : Decision} {app : Application} {post : Post}
    (hrole : s.role = Role.SEEKER) (hfindA : findApplication db id = some app)
    (hfindP : findPost db app.postId = some post) (hown : post.userId ≠ s.userId) :
    updateApplicationStatus sf db (some s) id d = .error .notPostOwner := by
  unfold updateApplicationStatus
  simp [hrole, hfindA, hfindP, hown]

lemma updateApplicationStatus_eval_ok {sf : Bool} {db : DB} {s : Session}
    {id : Nat} {d : Decision} {app : Application} {post : Post}
    (hrole : s.role = Role.SEEKER) (hfindA : findApplication db id = some app)
    (hfindP : findPost db app.postId = some post) (hown : post.userId = s.userId) :
    updateApplicationStatus sf db (some s) id d = .ok
      (createNotification sf
        (if d = Decision.ACCEPTED then
          { db with
            applications := db.applications.map
              (fun a => if a.id == id then { a with status := d.toStatus } else a),
            posts := db.posts.map
              (fun p => if p.id == app.postId then
                { p with status := PostStatus.CLOSED } else p) }
        else
          { db with
            applications := db.applications.map
              (fun a => if a.id == id then { a with status := d.toStatus } else a) })
        ⟨app.providerId, .STATUS_CHANGED,
          (if d = Decision.ACCEPTED then "Application Accepted!"
           else "Application Update"),
          (if d = Decision.ACCEPTED then
            "Your application for \"" ++ post.title ++ "\" has been accepted!"
           else
            "Your application for \"" ++ post.title ++ "\" was not selected."),
          some "/dashboard/provider"⟩,
       { app with status := d.toStatus }) := by
  unfold updateApplicationStatus
  simp only [hrole, hfindA, hfindP, hown, ne_eq, not_true_eq_false, if_false,
    ite_false, Except.ok.injEq, Prod.mk.injEq]

lemma withdrawApplication_eval_notFound {db : DB} {s : Session} {id : Nat}
    (hrole : s.role = Role.PROVIDER) (hfind : findApplication db id = none) :
    withdrawApplication db (some s) id = .error .applicationNotFound := by
  unfold withdrawApplication
  simp [hrole, hfind]

lemma withdrawApplication_eval_forbidden {db : DB} {s : Session} {id : Nat}
    {app : Application} (hrole : s.role = Role.PROVIDER)
    (hfind : findApplication db id = some app) (hown : app.providerId ≠ s.userId) :
    withdrawApplication db (some s) id = .error .notYourApplication := by
  unfold withdrawApplication
  simp [hrole, hfind, hown]

lemma withdrawApplication_eval_notPending {db : DB} {s : Session} {id : Nat}
    {app : Application} (hrole : s.role = Role.PROVIDER)
    (hfind : findApplication db id = some app) (hown : app.providerId = s.userId)
    (hst : app.status ≠ AppStatus.PENDING) :
    withdrawApplication db (some s) id = .error .applicationNotPending := by
  unfold withdrawApplication
  simp [hrole, hfind, hown, hst]

lemma withdrawApplication_eval_ok {db : DB} {s : Session} {id : Nat}
    {app : Application} (hrole : s.role = Role.PROVIDER)
    (hfind : findApplication db id = some app) (hown : app.providerId = s.userId)
    (hst : app.status = AppStatus.PENDING) :
    withdrawApplication db (some s) id =
      .ok { db with applications := db.applications.filter (fun a => ¬ a.id == id) } := by
  unfold withdrawApplication
  simp [hrole, hfind, hown, hst]

lemma deletePost_eval_ok {db : DB} {s : Session} {id : Nat} {post : Post}
    (hrole : s.role = Role.SEEKER) (hfind : findPost db id = some post)
    (hown : post.userId = s.userId) :
    deletePost db (some s) id = .ok { db with
      applications := db.applications.filter (fun a => ¬ a.postId == id),
      posts := db.posts.filter (fun p => ¬ p.id == id) } := by
  unfold deletePost
  simp [hrole, hfind, hown]

lemma createReview_eval_notFound {sf : Bool} {db : DB} {s : Session} {aid rating : Nat}
    {c : Option String} (hrole : s.role = Role.SEEKER)
    (hrt : 1 ≤ rating ∧ rating ≤ 5) (hfind : findApplication db aid = none) :
    createReview sf db (some s) aid rating c = .error .applicationNotFound := by
  unfold createReview
  simp [hrole, hrt, hfind]

lemma createReview_eval_notAccepted {sf : Bool} {db : DB} {s : Session}
    {aid rating : Nat} {c : Option String} {app : Application}
    (hrole : s.role = Role.SEEKER) (hrt : 1 ≤ rating ∧ rating ≤ 5)
    (hfind : findApplication db aid = some app)
    (hacc : app.status ≠ AppStatus.ACCEPTED) :
    createReview sf db (some s) aid rating c = .error .applicationNotAccepted := by
  unfold createReview
  simp [hrole, hrt, hfind, hacc]

lemma createReview_eval_postMissing {sf : Bool} {db : DB} {s : Session}
    {aid rating : Nat} {c : Option String} {app : Application}
    (hrole : s.role = Role.SEEKER) (hrt : 1 ≤ rating ∧ rating ≤ 5)
    (hfind : findApplication db aid = some app)
    (hacc : app.status = AppStatus.ACCEPTED)
    (hpost : findPost db app.postId = none) :
    createReview sf db (some s) aid rating c = .error .notPostOwner := by
  unfold createReview
  simp [hrole, hrt, hfind, hacc, hpost]

lemma createReview_eval_notOwner {sf : Bool} {db : DB} {s : Session}
    {aid rating : Nat} {c : Option String} {app : Application} {post : Post}
    (hrole : s.role = Role.SEEKER) (hrt : 1 ≤ rating ∧ rating ≤ 5)
    (hfind : findApplication db aid = some app)
    (hacc : app.status = AppStatus.ACCEPTED)
    (hpost : findPost db app.postId = some post) (hown : post.userId ≠ s.userId) :
    createReview sf db (some s) aid rating c = .error .notPostOwner := by
  unfold createReview
  simp [hrole, hrt, hfind, hacc, hpost, hown]

lemma createReview_eval_duplicate {sf : Bool} {db : DB} {s : Session}
    {aid rating : Nat} {c : Option String} {app : Application} {post : Post}
    (hrole : s.role = Role.SEEKER) (hrt : 1 ≤ rating ∧ rating ≤ 5)
    (hfind : findApplication db aid = some app)
    (hacc : app.status = AppStatus.ACCEPTED)
    (hpost : findPost db app.postId = some post) (hown : post.userId = s.userId)
    (hdup : hasReviewFor db aid = true) :
    createReview sf db (some s) aid rating c = .error .duplicateReview := by
  unfold createReview
  simp [hrole, hrt, hfind, hacc, hpost, hown, hdup]

lemma createReview_eval_ok {sf : Bool} {db : DB} {s : Session}
    {aid rating : Nat} {c : Option String} {app : Application} {post : Post}
    (hrole : s.role = Role.SEEKER) (hrt : 1 ≤ rating ∧ rating ≤ 5)
    (hfind : findApplication db aid = some app)
    (hacc : app.status = AppStatus.ACCEPTED)
    (hpost : findPost db app.postId = some post) (hown : post.userId = s.userId)
    (hdup : hasReviewFor db aid = false) :
    ∃ db' rv, createReview sf db (some s) aid rating c = .ok (db', rv) ∧
      rv = ⟨db.nextId, s.userId, app.providerId, aid, rating, c⟩ ∧
      db'.reviews = db.reviews ++ [rv] ∧
      db'.users = updateUserRating db.users app.providerId
        (roundedAvgRating (reviewsOf (db.reviews ++ [rv]) app.providerId))
        (reviewsOf (db.reviews ++ [rv]) app.providerId).length := by
  have hdup' : (db.reviews.any fun r => r.applicationId == aid) = false := hdup
  unfold createReview
  simp only [hrole, hrt, hfind, hacc, hpost, hown, hasReviewFor,
    reviewIndexedCreate, catchDuplicateReview, hdup', ne_eq, not_true_eq_false,
    if_false, ite_false, Bool.false_eq_true, and_self, not_false_eq_true,
    if_true, ite_true]
  refine ⟨_, _, rfl, rfl, by simp, ?_⟩
  simp only [createNotification_users]
  unfold recomputeRatingAfterCreate
  have hlen : (0 : Nat) < (reviewsOf (db.reviews ++
      [(⟨db.nextId, s.userId, app.providerId, aid, rating, c⟩ : Review)])
      app.providerId).length := by
    simp [reviewsOf, List.filter_append]
  simp only [reviewsOf] at hlen ⊢
  rw [if_pos hlen]

lemma createReview_eval_ok_eq {sf : Bool} {db : DB} {s : Session}
    {aid rating : Nat} {c : Option String} {app : Application} {post : Post}
    (hrole : s.role = Role.SEEKER) (hrt : 1 ≤ rating ∧ rating ≤ 5)
    (hfind : findApplication db aid = some app)
    (hacc : app.status = AppStatus.ACCEPTED)
    (hpost : findPost db app.postId = some post) (hown : post.userId = s.userId)
    (hdup : hasReviewFor db aid = false) :
    createReview sf db (some s) aid rating c = .ok
      (createNotification sf
        (recomputeRatingAfterCreate
          { db with
            reviews := db.reviews ++
              [⟨db.nextId, s.userId, app.providerId, aid, rating, c⟩],
            nextId := db.nextId + 1 }
          app.providerId)
        ⟨app.providerId, .NEW_REVIEW, "You received a new review",
          "A seeker left you a review.", some "/dashboard/provider"⟩,
       ⟨db.nextId, s.userId, app.providerId, aid, rating, c⟩) := by
  have hdup' : (db.reviews.any fun r => r.applicationId == aid) = false := hdup
  unfold createReview
  simp only [hrole, hrt, hfind, hacc, hpost, hown, hasReviewFor,
    reviewIndexedCreate, catchDuplicateReview, hdup', ne_eq, not_true_eq_false,
    if_false, ite_false, Bool.false_eq_true, and_self, not_false_eq_true,
    if_true, ite_true]

lemma deleteReview_eval_ok {db : DB} {s : Session} {id : Nat} {rv : Review}
    (hfind : findReview db id = some rv) (hown : rv.seekerId = s.userId) :
    deleteReview db (some s) id = .ok
      (recomputeRatingAfterDelete
        { db with reviews := db.reviews.filter (fun r => ¬ r.id == id) }
        rv.providerId) := by
  unfold deleteReview
  simp [hfind, hown]

/-! ## Claim theorems -/

/-- C1: for every apply request by an authenticated provider (with a
valid body), the preconditions are checked in exactly this order with
exactly these errors: missing post → `NotFound`; post not `OPEN` →
`InvalidState`; acting identity owns the post → `Forbidden` (spec §7
taxonomy: ownership mismatch); existing application for the pair →
`Conflict`; otherwise a new Application with status `PENDING` is
persisted. -/
theorem C1_apply_preconditions_in_order (sf : Bool) (db : DB) (s : Session)
    (pid : Nat) (m : String) (hrole : s.role = Role.PROVIDER)
    (hmsg : 10 ≤ m.length ∧ m.length ≤ 1000) :
    (findPost db pid = none →
      applyToPost sf db (some s) pid m = .error .postNotFound ∧
      specErrorKind .postNotFound = .NotFound)
  ∧ (∀ post, findPost db pid = some post → post.status ≠ PostStatus.OPEN →
      applyToPost sf db (some s) pid m = .error .postNotOpen ∧
      specErrorKind .postNotOpen = .InvalidState)
  ∧ (∀ post, findPost db pid = some post → post.status = PostStatus.OPEN →
      post.userId = s.userId →
      applyToPost sf db (some s) pid m = .error .selfApplication ∧
      specErrorKind .selfApplication = .Forbidden)
  ∧ (∀ post, findPost db pid = some post → post.status = PostStatus.OPEN →
      post.userId ≠ s.userId → hasApplicationFor db pid s.userId = true →
      applyToPost sf db (some s) pid m = .error .duplicateApplication ∧
      specErrorKind .duplicateApplication = .Conflict)
  ∧ (∀ post, findPost db pid = some post → post.status = PostStatus.OPEN →
      post.userId ≠ s.userId → hasApplicationFor db pid s.userId = false →
      ∃ db' app, applyToPost sf db (some s) pid m = .ok (db', app) ∧
        app.status = AppStatus.PENDING ∧ app.postId = pid ∧
        app.providerId = s.userId ∧
        db'.applications = db.applications ++ [app]) := by
  refine ⟨fun hfind => ⟨applyToPost_eval_postNotFound hrole hmsg hfind, rfl⟩,
    fun post hfind hopen => ⟨applyToPost_eval_postNotOpen hrole hmsg hfind hopen, rfl⟩,
    fun post hfind hopen hself =>
      ⟨applyToPost_eval_selfApplication hrole hmsg hfind hopen hself, rfl⟩,
    fun post hfind hopen hself hdup =>
      ⟨applyToPost_eval_duplicate hrole hmsg hfind hopen hself hdup, rfl⟩,
    fun post hfind hopen hself hdup =>
      ⟨_, _, applyToPost_eval_ok hrole hmsg hfind hopen hself hdup, rfl, rfl, rfl, by simp⟩⟩

/-- Witness for C1 at a concrete state: the empty database has no post
with id 1, so applying to it yields `postNotFound`. -/
theorem C1_witness :
    applyToPost false DB.init (some ⟨7, Role.PROVIDER⟩) 1
        "I have five years of experience" = .error .postNotFound ∧
    specErrorKind .postNotFound = .NotFound :=
  (C1_apply_preconditions_in_order false DB.init ⟨7, Role.PROVIDER⟩ 1
    "I have five years of experience" rfl (by decide)).1 rfl

/-- C2: after a successful apply by provider P to post J, a second
apply by P to J yields the `Conflict` error (HTTP 409) and creates
nothing; the unique-index violation at write time is mapped by the
catch clause to the same `Conflict`; and all reachable states hold at
most one Application per (post, provider) pair. -/
theorem C2_duplicate_application_conflict :
    (∀ (sf sf' : Bool) (db : DB) (s : Session) (pid : Nat) (m m' : String)
       (db' : DB) (app : Application),
      applyToPost sf db (some s) pid m = .ok (db', app) →
      10 ≤ m'.length ∧ m'.length ≤ 1000 →
      applyToPost sf' db' (some s) pid m' = .error .duplicateApplication ∧
      specErrorKind .duplicateApplication = .Conflict ∧
      httpStatus .duplicateApplication = 409)
  ∧ (∀ (apps : List Application) (a : Application),
      (∃ b ∈ apps, b.postId = a.postId ∧ b.providerId = a.providerId) →
      catchDuplicateApplication (applicationIndexedCreate apps a) =
        .error .duplicateApplication)
  ∧ (∀ db : DB, Reachable db → UniqueApplications db) := by
  refine ⟨?_, ?_, fun db h => reachable_UniqueApplications h⟩
  · intro sf sf' db s pid m m' db' app h hm'
    obtain ⟨hrole, hmsg, post, hfind, hopen, hself, hdup, happ, hposts, happs, -⟩ :=
      applyToPost_ok_inv h
    have hfind' : findPost db' pid = some post := by
      unfold findPost at hfind ⊢
      rw [hposts]
      exact hfind
    have hdup2 : hasApplicationFor db' pid s.userId = true := by
      refine hasApplicationFor_eq_true ⟨app, ?_, ?_⟩
      · rw [happs]
        exact List.mem_append_right _ (List.mem_singleton_self _)
      · subst happ
        exact ⟨rfl, rfl⟩
    exact ⟨applyToPost_eval_duplicate hrole hm' hfind' hopen hself hdup2, rfl, rfl⟩
  · intro apps a hex
    obtain ⟨b, hb, h1, h2⟩ := hex
    have hc : (apps.any fun b =>
        b.postId == a.postId && b.providerId == a.providerId) = true :=
      List.any_eq_true.mpr ⟨b, hb, by simp [h1, h2]⟩
    simp [applicationIndexedCreate, catchDuplicateApplication, hc]

/-- The provider identity used in the concrete apply scenario. -/
def provider20 : Session := ⟨20, Role.PROVIDER⟩

/-- Concrete state with one `OPEN` post and no applications. -/
def dbApplyBase : DB :=
  { posts := [⟨1, 10, "Garden work", PostStatus.OPEN⟩], applications := [],
    reviews := [], users := [], notifications := [], nextId := 5 }

/-- The application created by the first apply in the concrete scenario. -/
def appFirst : Application := ⟨5, 1, 20, "I have experience", AppStatus.PENDING⟩

/-- The state after the first successful apply in the concrete scenario. -/
def dbAfterApply : DB :=
  { posts := [⟨1, 10, "Garden work", PostStatus.OPEN⟩],
    applications := [appFirst], reviews := [], users := [],
    notifications := [⟨10, .NEW_APPLICATION, "New Application Received",
      "A provider applied to your post \"Garden work\"", some "/dashboard/seeker"⟩],
    nextId := 6 }

/-- Witness for C2: after provider 20's first apply to post 1
succeeded, the second apply yields 409 `Conflict`. -/
theorem C2_witness :
    applyToPost false dbAfterApply (some provider20) 1
        "I would like to reapply" = .error .duplicateApplication ∧
    specErrorKind .duplicateApplication = .Conflict ∧
    httpStatus .duplicateApplication = 409 :=
  C2_duplicate_application_conflict.1 false false dbApplyBase provider20 1
    "I have experience" "I would like to reapply" dbAfterApply appFirst
    (by decide) (by decide)

/-- The post-owner seeker identity used in the concrete decision scenarios. -/
def seeker10 : Session := ⟨10, Role.SEEKER⟩

/-- Concrete state whose only application is already `ACCEPTED`
(its post was auto-closed by that accept). -/
def dbAccepted : DB :=
  { posts := [⟨1, 10, "Fix my roof", PostStatus.CLOSED⟩],
    applications := [⟨2, 1, 20, "Ten chars or more", AppStatus.ACCEPTED⟩],
    reviews := [], users := [], notifications := [], nextId := 50 }

/-- C3 counterexample: application 2 of `dbAccepted` is `ACCEPTED`,
yet the status-update path succeeds in flipping it to `REJECTED`: the
stored status does not stay unchanged, so `ACCEPTED`/`REJECTED` are
not immutable via this path. -/
theorem C3_counterexample :
    (findApplication dbAccepted 2).map Application.status = some AppStatus.ACCEPTED ∧
    (updateApplicationStatus false dbAccepted (some seeker10) 2 Decision.REJECTED).map
      (fun x => (x.1.applications.map Application.status, x.2.status)) =
      .ok ([AppStatus.REJECTED], AppStatus.REJECTED) := by decide

/-- C3 (amended): the status-update path never inspects the current
status: whenever it succeeds it writes the requested target status
(`ACCEPTED` or `REJECTED` only — `PENDING` is not an accepted body) onto
the application unconditionally, so a decided application can be
re-decided. -/
theorem C3_status_update_is_unconditional (sf : Bool) (db : DB) (s : Session)
    (id : Nat) (d : Decision) (db' : DB) (upd : Application)
    (h : updateApplicationStatus sf db (some s) id d = .ok (db', upd)) :
    upd.status = d.toStatus ∧
    (∀ a ∈ db'.applications, a.id = id → a.status = d.toStatus) ∧
    d.toStatus ≠ AppStatus.PENDING := by
  obtain ⟨-, app, post, hfindA, -, -, hupd, happs, -⟩ := updateApplicationStatus_ok_inv h
  refine ⟨by rw [hupd], ?_, by cases d <;> simp [Decision.toStatus]⟩
  intro a ha hid
  rw [happs] at ha
  obtain ⟨b, hb, hbeq⟩ := List.mem_map.mp ha
  by_cases hbid : (b.id == id) = true
  · subst hbeq
    simp [hbid]
  · subst hbeq
    simp only [hbid, ite_false, if_false, Bool.false_eq_true] at hid ⊢
    exact absurd hid (by simpa using hbid)

/-- The application of `dbAccepted` after being flipped to `REJECTED`. -/
def appRejected : Application := ⟨2, 1, 20, "Ten chars or more", AppStatus.REJECTED⟩

/-- The state reached by re-deciding the accepted application of
`dbAccepted` to `REJECTED`. -/
def dbAfterReject : DB :=
  { posts := [⟨1, 10, "Fix my roof", PostStatus.CLOSED⟩],
    applications := [appRejected], reviews := [], users := [],
    notifications := [⟨20, .STATUS_CHANGED, "Application Update",
      "Your application for \"Fix my roof\" was not selected.",
      some "/dashboard/provider"⟩],
    nextId := 50 }

/-- Witness for the amended C3 at the concrete flip scenario. -/
theorem C3_witness :
    appRejected.status = Decision.REJECTED.toStatus ∧
    Decision.REJECTED.toStatus ≠ AppStatus.PENDING :=
  ⟨(C3_status_update_is_unconditional false dbAccepted seeker10 2 .REJECTED
      dbAfterReject appRejected (by decide)).1,
   (C3_status_update_is_unconditional false dbAccepted seeker10 2 .REJECTED
      dbAfterReject appRejected (by decide)).2.2⟩

/-- C4: accepting an application closes its post and leaves every
other application's stored document unchanged (no mass-reject);
rejecting leaves the posts collection unchanged. -/
theorem C4_accept_closes_post_reject_frames :
    (∀ (sf : Bool) (db : DB) (s : Session) (id : Nat) (db' : DB)
       (upd app : Application),
      findApplication db id = some app →
      updateApplicationStatus sf db (some s) id Decision.ACCEPTED = .ok (db', upd) →
      (∀ p ∈ db'.posts, p.id = app.postId → p.status = PostStatus.CLOSED) ∧
      (∀ a ∈ db.applications, a.id ≠ id → a ∈ db'.applications))
  ∧ (∀ (sf : Bool) (db : DB) (s : Session) (id : Nat) (db' : DB)
       (upd : Application),
      updateApplicationStatus sf db (some s) id Decision.REJECTED = .ok (db', upd) →
      db'.posts = db.posts) := by
  constructor
  · intro sf db s id db' upd app hfind h
    obtain ⟨-, app0, post, hfind0, -, -, -, happs, hposts, -⟩ :=
      updateApplicationStatus_ok_inv h
    have happ0 : app0 = app := by
      rw [hfind0] at hfind
      exact Option.some.inj hfind
    subst happ0
    rw [if_pos rfl] at hposts
    constructor
    · intro p hp hpid
      rw [hposts] at hp
      obtain ⟨q, hq, hqe⟩ := List.mem_map.mp hp
      by_cases hqid : (q.id == app0.postId) = true
      · subst hqe
        simp [hqid]
      · subst hqe
        simp only [hqid, ite_false, if_false, Bool.false_eq_true] at hpid ⊢
        exact absurd hpid (by simpa using hqid)
    · intro a ha hne
      rw [happs]
      refine List.mem_map.mpr ⟨a, ha, ?_⟩
      have hbe : (a.id == id) = false := by simpa using hne
      simp [hbe]
  · intro sf db s id db' upd h
    obtain ⟨-, app0, post, -, -, -, -, -, hposts, -⟩ :=
      updateApplicationStatus_ok_inv h
    simpa using hposts

/-- Concrete state with one open post and two pending applications. -/
def dbTwoApps : DB :=
  { posts := [⟨1, 10, "Paint the fence", PostStatus.OPEN⟩],
    applications := [⟨2, 1, 20, "First application", AppStatus.PENDING⟩,
                     ⟨3, 1, 21, "Second application", AppStatus.PENDING⟩],
    reviews := [], users := [], notifications := [], nextId := 9 }

/-- Application 2 of `dbTwoApps` after being accepted. -/
def appAccepted2 : Application := ⟨2, 1, 20, "First application", AppStatus.ACCEPTED⟩

/-- The state reached by accepting application 2 of `dbTwoApps`: the
post is auto-closed and application 3 is untouched. -/
def dbAfterAccept : DB :=
  { posts := [⟨1, 10, "Paint the fence", PostStatus.CLOSED⟩],
    applications := [appAccepted2, ⟨3, 1, 21, "Second application", AppStatus.PENDING⟩],
    reviews := [], users := [],
    notifications := [⟨20, .STATUS_CHANGED, "Application Accepted!",
      "Your application for \"Paint the fence\" has been accepted!",
      some "/dashboard/provider"⟩],
    nextId := 9 }

/-- Witness for C4 at the concrete accept scenario. -/
theorem C4_witness :
    (⟨1, 10, "Paint the fence", PostStatus.CLOSED⟩ : Post).status = PostStatus.CLOSED ∧
    (⟨3, 1, 21, "Second application", AppStatus.PENDING⟩ : Application) ∈
      dbAfterAccept.applications := by
  have h := C4_accept_closes_post_reject_frames.1 false dbTwoApps seeker10 2
    dbAfterAccept appAccepted2 ⟨2, 1, 20, "First application", AppStatus.PENDING⟩
    (by decide) (by decide)
  exact ⟨h.1 _ (by decide) rfl, h.2 _ (by decide) (by decide)⟩

/-- C5: for every review-create request by an authenticated seeker
(with a valid rating), the preconditions are checked in exactly this
order with exactly these errors: missing application → `NotFound`;
application not `ACCEPTED` → `InvalidState`; caller does not own the
application's post (including a missing post) → `Forbidden`; existing
review for the application → `Conflict` (with the unique index mapped
to the same `Conflict` as a race backstop); otherwise the review is
persisted and the provider's stored rating is recomputed. -/
theorem C5_review_preconditions_in_order (sf : Bool) (db : DB) (s : Session)
    (aid rating : Nat) (c : Option String) (hrole : s.role = Role.SEEKER)
    (hrt : 1 ≤ rating ∧ rating ≤ 5) :
    (findApplication db aid = none →
      createReview sf db (some s) aid rating c = .error .applicationNotFound ∧
      specErrorKind .applicationNotFound = .NotFound)
  ∧ (∀ app, findApplication db aid = some app → app.status ≠ AppStatus.ACCEPTED →
      createReview sf db (some s) aid rating c = .error .applicationNotAccepted ∧
      specErrorKind .applicationNotAccepted = .InvalidState)
  ∧ (∀ app, findApplication db aid = some app → app.status = AppStatus.ACCEPTED →
      findPost db app.postId = none →
      createReview sf db (some s) aid rating c = .error .notPostOwner ∧
      specErrorKind .notPostOwner = .Forbidden)
  ∧ (∀ app post, findApplication db aid = some app →
      app.status = AppStatus.ACCEPTED → findPost db app.postId = some post →
      post.userId ≠ s.userId →
      createReview sf db (some s) aid rating c = .error .notPostOwner ∧
      specErrorKind .notPostOwner = .Forbidden)
  ∧ (∀ app post, findApplication db aid = some app →
      app.status = AppStatus.ACCEPTED → findPost db app.postId = some post →
      post.userId = s.userId → hasReviewFor db aid = true →
      createReview sf db (some s) aid rating c = .error .duplicateReview ∧
      specErrorKind .duplicateReview = .Conflict ∧
      httpStatus .duplicateReview = 409)
  ∧ (∀ (rs : List Review) (r : Review),
      (∃ b ∈ rs, b.applicationId = r.applicationId) →
      catchDuplicateReview (reviewIndexedCreate rs r) = .error .duplicateReview)
  ∧ (∀ app post, findApplication db aid = some app →
      app.status = AppStatus.ACCEPTED → findPost db app.postId = some post →
      post.userId = s.userId → hasReviewFor db aid = false →
      ∃ db' rv, createReview sf db (some s) aid rating c = .ok (db', rv) ∧
        db'.reviews = db.reviews ++ [rv] ∧
        db'.users = updateUserRating db.users app.providerId
          (roundedAvgRating (reviewsOf db'.reviews app.providerId))
          (reviewsOf db'.reviews app.providerId).length) := by
  refine ⟨fun hfind => ⟨createReview_eval_notFound hrole hrt hfind, rfl⟩,
    fun app hfind hacc => ⟨createReview_eval_notAccepted hrole hrt hfind hacc, rfl⟩,
    fun app hfind hacc hpost =>
      ⟨createReview_eval_postMissing hrole hrt hfind hacc hpost, rfl⟩,
    fun app post hfind hacc hpost hown =>
      ⟨createReview_eval_notOwner hrole hrt hfind hacc hpost hown, rfl⟩,
    fun app post hfind hacc hpost hown hdup =>
      ⟨createReview_eval_duplicate hrole hrt hfind hacc hpost hown hdup, rfl, rfl⟩,
    ?_, ?_⟩
  · intro rs r hex
    obtain ⟨b, hb, h1⟩ := hex
    have hc : (rs.any fun b => b.applicationId == r.applicationId) = true :=
      List.any_eq_true.mpr ⟨b, hb, by simp [h1]⟩
    simp [reviewIndexedCreate, catchDuplicateReview, hc]
  · intro app post hfind hacc hpost hown hdup
    obtain ⟨db', rv, hop, hrv, hrevs, husers⟩ :=
      @createReview_eval_ok sf db s aid rating c app post hrole hrt hfind hacc hpost hown hdup
    exact ⟨db', rv, hop, hrevs, by rw [hrevs]; exact husers⟩

/-- Witness for C5 at a concrete state: the empty database has no
application 42, so the review is refused with `applicationNotFound`. -/
theorem C5_witness :
    createReview false DB.init (some ⟨3, Role.SEEKER⟩) 42 5 none =
      .error .applicationNotFound ∧
    specErrorKind .applicationNotFound = .NotFound :=
  (C5_review_preconditions_in_order false DB.init ⟨3, Role.SEEKER⟩ 42 5 none
    rfl (by decide)).1 rfl

/-- C7: withdrawal succeeds only for the owning provider on a
`PENDING` application: missing application → `NotFound`; foreign
application → `Forbidden`; non-`PENDING` status → `InvalidState` with
no state change possible; on success the application is removed. -/
theorem C7_withdraw_rules (db : DB) (s : Session) (id : Nat)
    (hrole : s.role = Role.PROVIDER) :
    (findApplication db id = none →
      withdrawApplication db (some s) id = .error .applicationNotFound ∧
      specErrorKind .applicationNotFound = .NotFound)
  ∧ (∀ app, findApplication db id = some app → app.providerId ≠ s.userId →
      withdrawApplication db (some s) id = .error .notYourApplication ∧
      specErrorKind .notYourApplication = .Forbidden)
  ∧ (∀ app, findApplication db id = some app → app.providerId = s.userId →
      app.status ≠ AppStatus.PENDING →
      withdrawApplication db (some s) id = .error .applicationNotPending ∧
      specErrorKind .applicationNotPending = .InvalidState ∧
      ∀ db'', withdrawApplication db (some s) id = .ok db'' → False)
  ∧ (∀ app, findApplication db id = some app → app.providerId = s.userId →
      app.status = AppStatus.PENDING →
      withdrawApplication db (some s) id =
        .ok { db with applications :=
          db.applications.filter (fun a => ¬ a.id == id) }) := by
  refine ⟨fun hfind => ⟨withdrawApplication_eval_notFound hrole hfind, rfl⟩,
    fun app hfind hown => ⟨withdrawApplication_eval_forbidden hrole hfind hown, rfl⟩,
    fun app hfind hown hst => ⟨withdrawApplication_eval_notPending hrole hfind hown hst,
      rfl, ?_⟩,
    fun app hfind hown hst => withdrawApplication_eval_ok hrole hfind hown hst⟩
  intro db'' hok
  rw [withdrawApplication_eval_notPending hrole hfind hown hst] at hok
  cases hok

/-- Witness for C7: withdrawing the accepted application 2 of
`dbAccepted` as its own provider yields `InvalidState`. -/
theorem C7_witness :
    withdrawApplication dbAccepted (some provider20) 2 =
      .error .applicationNotPending ∧
    specErrorKind .applicationNotPending = .InvalidState := by
  have h := (C7_withdraw_rules dbAccepted provider20 2 rfl).2.2.1
    ⟨2, 1, 20, "Ten chars or more", AppStatus.ACCEPTED⟩ (by decide) rfl (by decide)
  exact ⟨h.1, h.2.1⟩

/-- C8: deleting a post first removes every application referencing it
and then the post, unconditionally; consequently every reachable state
satisfies referential integrity — no application references a missing
post. -/
theorem C8_delete_cascade_and_integrity :
    (∀ (db : DB) (s : Session) (id : Nat) (db' : DB),
      deletePost db (some s) id = .ok db' →
      db'.applications = db.applications.filter (fun a => ¬ a.postId == id) ∧
      db'.posts = db.posts.filter (fun p => ¬ p.id == id) ∧
      ∀ a ∈ db'.applications, a.postId ≠ id)
  ∧ (∀ db : DB, Reachable db → AppsRefPosts db) := by
  constructor
  · intro db s id db' h
    obtain ⟨-, post, -, -, hdb'⟩ := deletePost_ok_inv h
    subst hdb'
    refine ⟨rfl, rfl, ?_⟩
    intro a ha
    simp only [List.mem_filter] at ha
    simpa using ha.2
  · exact fun db h => reachable_AppsRefPosts h

/-- Concrete state with two posts, each with one application. -/
def dbCascade : DB :=
  { posts := [⟨1, 10, "Build a shed", PostStatus.OPEN⟩,
              ⟨2, 10, "Walk my dog", PostStatus.OPEN⟩],
    applications := [⟨3, 1, 20, "App to shed post", AppStatus.PENDING⟩,
                     ⟨4, 2, 20, "App to dog post", AppStatus.PENDING⟩],
    reviews := [], users := [], notifications := [], nextId := 8 }

/-- The state reached by deleting post 1 of `dbCascade`: its
application is cascade-deleted with it. -/
def dbCascadeAfter : DB :=
  { posts := [⟨2, 10, "Walk my dog", PostStatus.OPEN⟩],
    applications := [⟨4, 2, 20, "App to dog post", AppStatus.PENDING⟩],
    reviews := [], users := [], notifications := [], nextId := 8 }

/-- Witness for C8 at the concrete cascade scenario. -/
theorem C8_witness :
    dbCascadeAfter.applications =
      dbCascade.applications.filter (fun a => ¬ a.postId == 1) ∧
    dbCascadeAfter.posts = dbCascade.posts.filter (fun p => ¬ p.id == 1) := by
  have h := C8_delete_cascade_and_integrity.1 dbCascade seeker10 1 dbCascadeAfter
    (by decide)
  exact ⟨h.1, h.2.1⟩

/-- A database with its notifications collection forgotten: the
business state (posts, applications, reviews, users, id counter). -/
def stripNotifications (db : DB) : DB := { db with notifications := [] }

lemma stripNotifications_createNotification (sf : Bool) (db : DB) (n : Notification) :
    stripNotifications (createNotification sf db n) = stripNotifications db := by
  cases sf <;> rfl

/-- C9: for each notification-emitting business operation (apply,
status update, review create), a failing notification sink
(`sf = true`, the underlying `Notification.create` throws) yields the
very same result and the very same persisted business state as a
succeeding sink — the failure is swallowed, never propagated. -/
theorem C9_notification_failure_swallowed (sf : Bool) (db : DB) (s : Option Session)
    (pid id aid rating : Nat) (m : String) (d : Decision) (c : Option String) :
    (applyToPost sf db s pid m).map (fun x => (stripNotifications x.1, x.2)) =
      (applyToPost false db s pid m).map (fun x => (stripNotifications x.1, x.2))
  ∧ (updateApplicationStatus sf db s id d).map
        (fun x => (stripNotifications x.1, x.2)) =
      (updateApplicationStatus false db s id d).map
        (fun x => (stripNotifications x.1, x.2))
  ∧ (createReview sf db s aid rating c).map
        (fun x => (stripNotifications x.1, x.2)) =
      (createReview false db s aid rating c).map
        (fun x => (stripNotifications x.1, x.2)) := by
  refine ⟨?_, ?_, ?_⟩
  · cases s with
    | none => rfl
    | some s =>
      by_cases hrole : s.role = Role.PROVIDER
      case neg =>
        have h1 : ∀ b, applyToPost b db (some s) pid m = .error .roleForbidden := by
          intro b; unfold applyToPost; simp [hrole]
        rw [h1 sf, h1 false]
      by_cases hmsg : 10 ≤ m.length ∧ m.length ≤ 1000
      case neg =>
        have h1 : ∀ b, applyToPost b db (some s) pid m = .error .validationFailed := by
          intro b; unfold applyToPost; simp [hrole, hmsg]
        rw [h1 sf, h1 false]
      cases hfind : findPost db pid with
      | none =>
        rw [applyToPost_eval_postNotFound hrole hmsg hfind,
            applyToPost_eval_postNotFound hrole hmsg hfind]
      | some post =>
      by_cases hopen : post.status = PostStatus.OPEN
      case neg =>
        rw [applyToPost_eval_postNotOpen hrole hmsg hfind hopen,
            applyToPost_eval_postNotOpen hrole hmsg hfind hopen]
      by_cases hself : post.userId = s.userId
      case pos =>
        rw [applyToPost_eval_selfApplication hrole hmsg hfind hopen hself,
            applyToPost_eval_selfApplication hrole hmsg hfind hopen hself]
      by_cases hdup : hasApplicationFor db pid s.userId = true
      case pos =>
        rw [applyToPost_eval_duplicate hrole hmsg hfind hopen hself hdup,
            applyToPost_eval_duplicate hrole hmsg hfind hopen hself hdup]
      rw [Bool.not_eq_true] at hdup
      rw [applyToPost_eval_ok hrole hmsg hfind hopen hself hdup,
          applyToPost_eval_ok hrole hmsg hfind hopen hself hdup]
      simp [Except.map, stripNotifications_createNotification]
  · cases s with
    | none => rfl
    | some s =>
      by_cases hrole : s.role = Role.SEEKER
      case neg =>
        have h1 : ∀ b, updateApplicationStatus b db (some s) id d =
            .error .roleForbidden := by
          intro b; unfold updateApplicationStatus; simp [hrole]
        rw [h1 sf, h1 false]
      cases hfindA : findApplication db id with
      | none =>
        rw [updateApplicationStatus_eval_notFound hrole hfindA,
            updateApplicationStatus_eval_notFound hrole hfindA]
      | some app =>
      cases hfindP : findPost db app.postId with
      | none =>
        rw [updateApplicationStatus_eval_postMissing hrole hfindA hfindP,
            updateApplicationStatus_eval_postMissing hrole hfindA hfindP]
      | some post =>
      by_cases hown : post.userId = s.userId
      case neg =>
        rw [updateApplicationStatus_eval_notOwner hrole hfindA hfindP hown,
            updateApplicationStatus_eval_notOwner hrole hfindA hfindP hown]
      rw [updateApplicationStatus_eval_ok hrole hfindA hfindP hown,
          updateApplicationStatus_eval_ok hrole hfindA hfindP hown]
      simp [Except.map, stripNotifications_createNotification]
  · cases s with
    | none => rfl
    | some s =>
      by_cases hrole : s.role = Role.SEEKER
      case neg =>
        have h1 : ∀ b, createReview b db (some s) aid rating c =
            .error .roleForbidden := by
          intro b; unfold createReview; simp [hrole]
        rw [h1 sf, h1 false]
      by_cases hrt : 1 ≤ rating ∧ rating ≤ 5
      case neg =>
        have h1 : ∀ b, createReview b db (some s) aid rating c =
            .error .validationFailed := by
          intro b; unfold createReview; simp [hrole, hrt]
        rw [h1 sf, h1 false]
      cases hfind : findApplication db aid with
      | none =>
        rw [createReview_eval_notFound hrole hrt hfind,
            createReview_eval_notFound hrole hrt hfind]
      | some app =>
      by_cases hacc : app.status = AppStatus.ACCEPTED
      case neg =>
        rw [createReview_eval_notAccepted hrole hrt hfind hacc,
            createReview_eval_notAccepted hrole hrt hfind hacc]
      cases hpost : findPost db app.postId with
      | none =>
        rw [createReview_eval_postMissing hrole hrt hfind hacc hpost,
            createReview_eval_postMissing hrole hrt hfind hacc hpost]
      | some post =>
      by_cases hown : post.userId = s.userId
      case neg =>
        rw [createReview_eval_notOwner hrole hrt hfind hacc hpost hown,
            createReview_eval_notOwner hrole hrt hfind hacc hpost hown]
      by_cases hdup : hasReviewFor db aid = true
      case pos =>
        rw [createReview_eval_duplicate hrole hrt hfind hacc hpost hown hdup,
            createReview_eval_duplicate hrole hrt hfind hacc hpost hown hdup]
      rw [Bool.not_eq_true] at hdup
      rw [createReview_eval_ok_eq hrole hrt hfind hacc hpost hown hdup,
          createReview_eval_ok_eq hrole hrt hfind hacc hpost hown hdup]
      simp [Except.map, stripNotifications_createNotification]

/-- The seeker who owns the posts of the rating scenarios. -/
def seeker1 : Session := ⟨1, Role.SEEKER⟩

/-- The rating projection stored on a user record. -/
def userRating (db : DB) (uid : Nat) : Option (ℚ × Nat) :=
  (db.users.find? (fun u => u.id == uid)).map (fun u => (u.averageRating, u.reviewCount))

/-- Rating scenario: provider 100 has three reviews [5,5,4] (stored
aggregate 4.7/3) and a fourth accepted application not yet reviewed. -/
def dbRatingBase3 : DB :=
  { posts := [⟨1, 1, "Post number one", PostStatus.CLOSED⟩,
              ⟨2, 1, "Post number two", PostStatus.CLOSED⟩,
              ⟨3, 1, "Post number three", PostStatus.CLOSED⟩,
              ⟨4, 1, "Post number four", PostStatus.CLOSED⟩],
    applications := [⟨11, 1, 100, "First application", AppStatus.ACCEPTED⟩,
                     ⟨12, 2, 100, "Second application", AppStatus.ACCEPTED⟩,
                     ⟨13, 3, 100, "Third application", AppStatus.ACCEPTED⟩,
                     ⟨14, 4, 100, "Fourth application", AppStatus.ACCEPTED⟩],
    reviews := [⟨20, 1, 100, 11, 5, none⟩, ⟨21, 1, 100, 12, 5, none⟩,
                ⟨22, 1, 100, 13, 4, none⟩],
    users := [⟨1, "Sia", Role.SEEKER, 0, 0⟩,
              ⟨100, "Pia", Role.PROVIDER, 47/10, 3⟩],
    notifications := [], nextId := 23 }

/-- The not-yet-reviewed accepted application of `dbRatingBase3`. -/
def appFour : Application := ⟨14, 4, 100, "Fourth application", AppStatus.ACCEPTED⟩

/-- The post that `appFour` targets. -/
def postFour : Post := ⟨4, 1, "Post number four", PostStatus.CLOSED⟩

/-- Rating scenario: provider 100 with reviews [5,5,4,3] (aggregate 4.3/4). -/
def dbRating4 : DB :=
  { posts := dbRatingBase3.posts, applications := dbRatingBase3.applications,
    reviews := [⟨20, 1, 100, 11, 5, none⟩, ⟨21, 1, 100, 12, 5, none⟩,
                ⟨22, 1, 100, 13, 4, none⟩, ⟨23, 1, 100, 14, 3, none⟩],
    users := [⟨1, "Sia", Role.SEEKER, 0, 0⟩,
              ⟨100, "Pia", Role.PROVIDER, 43/10, 4⟩],
    notifications := [], nextId := 24 }

/-- The rating-3 review of `dbRating4`. -/
def rv23 : Review := ⟨23, 1, 100, 14, 3, none⟩

/-- Rating scenario: provider 100 with a single rating-5 review. -/
def dbRating1 : DB :=
  { posts := dbRatingBase3.posts, applications := dbRatingBase3.applications,
    reviews := [⟨20, 1, 100, 11, 5, none⟩],
    users := [⟨1, "Sia", Role.SEEKER, 0, 0⟩, ⟨100, "Pia", Role.PROVIDER, 5, 1⟩],
    notifications := [], nextId := 21 }

/-- The single review of `dbRating1`. -/
def rv20 : Review := ⟨20, 1, 100, 11, 5, none⟩

/-- `dbRating1` after its only review is deleted: aggregate reset to 0/0. -/
def dbRatingEmptied : DB :=
  { posts := dbRatingBase3.posts, applications := dbRatingBase3.applications,
    reviews := [],
    users := [⟨1, "Sia", Role.SEEKER, 0, 0⟩, ⟨100, "Pia", Role.PROVIDER, 0, 0⟩],
    notifications := [], nextId := 21 }

/-- C6: the rating aggregator stores the arithmetic mean of the
remaining reviews' ratings rounded to one decimal (as `⌊10·mean +
1/2⌋/10`, i.e. `Math.round(avg*10)/10`), together with their count,
resetting to 0/0 when none remain; concretely, ratings [5,5,4,3] store
4.3 with count 4, deleting the rating-3 review stores 4.7 with count 3,
and deleting the last review stores 0 with count 0. -/
theorem C6_rating_aggregator :
    (∀ (db : DB) (s : Session) (id : Nat) (db' : DB) (rv : Review),
      deleteReview db (some s) id = .ok db' → findReview db id = some rv →
      db'.users = updateUserRating db.users rv.providerId
        (if 0 < (reviewsOf (db.reviews.filter (fun r => ¬ r.id == id))
            rv.providerId).length
         then roundedAvgRating (reviewsOf (db.reviews.filter (fun r => ¬ r.id == id))
            rv.providerId)
         else 0)
        (reviewsOf (db.reviews.filter (fun r => ¬ r.id == id)) rv.providerId).length)
  ∧ (∃ db' rv, createReview false dbRatingBase3 (some seeker1) 14 3 none =
        .ok (db', rv) ∧ userRating db' 100 = some (43/10, 4))
  ∧ (∃ db', deleteReview dbRating4 (some seeker1) 23 = .ok db' ∧
      userRating db' 100 = some (47/10, 3))
  ∧ (∃ db', deleteReview dbRating1 (some seeker1) 20 = .ok db' ∧
      userRating db' 100 = some (0, 0)) := by
  refine ⟨?_, ?_, ?_, ?_⟩
  · intro db s id db' rv h hfind
    obtain ⟨rv0, hfind0, -, hdb'⟩ := deleteReview_ok_inv h
    rw [hfind0] at hfind
    obtain rfl := Option.some.inj hfind
    subst hdb'
    rfl
  · refine ⟨_, _, @createReview_eval_ok_eq false dbRatingBase3 seeker1 14 3 none
      appFour postFour rfl (by decide) (by decide) rfl (by decide) rfl (by decide), ?_⟩
    norm_num [userRating, createNotification, recomputeRatingAfterCreate, reviewsOf,
      updateUserRating, roundedAvgRating, ratingSum, dbRatingBase3, round_eq,
      appFour, postFour, seeker1, List.filter, List.find?]
    exact ⟨_, rfl, rfl, rfl⟩
  · refine ⟨_, @deleteReview_eval_ok dbRating4 seeker1 23 rv23 (by decide) rfl, ?_⟩
    norm_num [userRating, recomputeRatingAfterDelete, reviewsOf,
      updateUserRating, roundedAvgRating, ratingSum, dbRating4, round_eq,
      rv23, seeker1, List.filter, List.find?]
    exact ⟨_, rfl, rfl, rfl⟩
  · refine ⟨_, @deleteReview_eval_ok dbRating1 seeker1 20 rv20 (by decide) rfl, ?_⟩
    norm_num [userRating, recomputeRatingAfterDelete, reviewsOf,
      updateUserRating, roundedAvgRating, ratingSum, dbRating1, round_eq,
      rv20, seeker1, List.filter, List.find?]
    exact ⟨_, rfl, rfl, rfl⟩

/-- Witness for C6's general recomputation statement at the concrete
delete of the last review of `dbRating1`. -/
theorem C6_witness :
    dbRatingEmptied.users = updateUserRating dbRating1.users rv20.providerId
      (if 0 < (reviewsOf (dbRating1.reviews.filter (fun r => ¬ r.id == 20))
          rv20.providerId).length
       then roundedAvgRating (reviewsOf (dbRating1.reviews.filter (fun r => ¬ r.id == 20))
          rv20.providerId)
       else 0)
      (reviewsOf (dbRating1.reviews.filter (fun r => ¬ r.id == 20))
        rv20.providerId).length := by
  have hdel : deleteReview dbRating1 (some seeker1) 20 = .ok dbRatingEmptied := by
    rw [@deleteReview_eval_ok dbRating1 seeker1 20 rv20 (by decide) rfl]
    rfl
  exact C6_rating_aggregator.1 dbRating1 seeker1 20 dbRatingEmptied rv20 hdel (by decide)

/-- Orphan scenario: post 1 was accepted and reviewed; deleting it
cascades onto the application but not onto the review or the stored
rating. -/
def dbOrphan : DB :=
  { posts := [⟨1, 1, "Paint the house", PostStatus.CLOSED⟩],
    applications := [⟨2, 1, 100, "Let me paint it", AppStatus.ACCEPTED⟩],
    reviews := [⟨3, 1, 100, 2, 5, some "Great work"⟩],
    users := [⟨100, "Pia", Role.PROVIDER, 5, 1⟩],
    notifications := [], nextId := 10 }

/-- `dbOrphan` after post 1 is deleted: the review and the rating
projection survive, the application does not. -/
def dbOrphanAfter : DB :=
  { posts := [], applications := [],
    reviews := [⟨3, 1, 100, 2, 5, some "Great work"⟩],
    users := [⟨100, "Pia", Role.PROVIDER, 5, 1⟩],
    notifications := [], nextId := 10 }

/-- C10: deleting a post leaves the reviews collection and the users
collection (hence every stored `averageRating`/`reviewCount`) entirely
unchanged; concretely, after deleting reviewed post 1 of `dbOrphan`
the review still exists and still names application 2, which no longer
exists, while provider 100's stored aggregate is untouched. -/
theorem C10_post_delete_leaves_reviews_and_ratings :
    (∀ (db : DB) (s : Option Session) (id : Nat) (db' : DB),
      deletePost db s id = .ok db' →
      db'.reviews = db.reviews ∧ db'.users = db.users)
  ∧ (∃ db', deletePost dbOrphan (some seeker1) 1 = .ok db' ∧
      db'.reviews = dbOrphan.reviews ∧ db'.users = dbOrphan.users ∧
      db'.applications = [] ∧
      (⟨3, 1, 100, 2, 5, some "Great work"⟩ : Review) ∈ db'.reviews ∧
      (db'.applications.any fun a => a.id == 2) = false ∧
      userRating db' 100 = some (5, 1)) := by
  constructor
  · intro db s id db' h
    cases s with
    | none => simp [deletePost] at h
    | some s =>
      obtain ⟨-, post, -, -, hdb'⟩ := deletePost_ok_inv h
      subst hdb'
      exact ⟨rfl, rfl⟩
  · refine ⟨_, @deletePost_eval_ok dbOrphan seeker1 1
      ⟨1, 1, "Paint the house", PostStatus.CLOSED⟩ rfl (by decide) rfl,
      rfl, rfl, by decide, by decide, by decide, rfl⟩

/-- Witness for C10's frame statement at the concrete orphan scenario. -/
theorem C10_witness :
    dbOrphanAfter.reviews = dbOrphan.reviews ∧
    dbOrphanAfter.users = dbOrphan.users := by
  have hdel : deletePost dbOrphan (some seeker1) 1 = .ok dbOrphanAfter := by
    rw [@deletePost_eval_ok dbOrphan seeker1 1
      ⟨1, 1, "Paint the house", PostStatus.CLOSED⟩ rfl (by decide) rfl]
    rfl
  exact C10_post_delete_leaves_reviews_and_ratings.1 dbOrphan (some seeker1) 1
    dbOrphanAfter hdel

end SkillBridge
